import Mathlib

/-!
Verification development for the daemon2 market-data and trading daemon.

The Go sources are shallowly embedded: each database table is a list of
rows, each SQL statement becomes an explicit list transformation returning
the rows it affects, and every fallible operation returns `Except`.
Machine integers hold ids, statuses and microsecond timestamps; they are
modelled as `Nat` (none of the embedded code paths overflow or go
negative on the modelled inputs, and Go comparisons on these values agree
with the `Nat` ones as noted at each definition).
-/

namespace Daemon2

/-! ## Arbitrage transaction records (table ARBITRAGE_TRANS)

Statuses follow the schema enum: 1 = New, 2 = InProgress, 3 = Suspend,
4 = Error, 5 = Complete, 6 = CompleteLoss, 7 = ErrorApproved,
8 = CompleteLossApproved. -/

/-- Row of ARBITRAGE_TRANS: (ID, TRADE_ID, STATUS, AMOUNT, CALC_PRFIT,
DATE_CREATE, DATE_MODIFY). Timestamps are microsecond counts. -/
structure ArbTransRow where
  id : Nat
  tradeId : Nat
  status : Nat
  amount : Option Rat
  calcProfit : Option Rat
  dateCreate : Nat
  dateModify : Nat
deriving DecidableEq

/-- Semantics of `UPDATE tbl SET ... WHERE cond`: rows satisfying `cond`
are replaced by `upd` applied to them, the rest stay; the second component
is the driver `RowsAffected` count. -/
def sqlUpdateWhere {α : Type} (upd : α → α) (cond : α → Bool)
    (tbl : List α) : List α × Nat :=
  (tbl.map (fun r => if cond r then upd r else r), (tbl.filter cond).length)

/-- Embedding of `ArbitrageTransHandler.RecoverSuspendedTransactions`
(internal/trader/history_logger.go): executes
`UPDATE ARBITRAGE_TRANS SET STATUS = 1, DATE_MODIFY = NOW() WHERE STATUS = 3`
and returns the updated table together with the affected-row count. -/
def recoverSuspendedTransactions (nowMicros : Nat) (tbl : List ArbTransRow) :
    List ArbTransRow × Nat :=
  sqlUpdateWhere (fun r => { r with status := 1, dateModify := nowMicros })
    (fun r => r.status == 3) tbl

/-- Insertion step for ascending sort by `id` (models SQL `ORDER BY ID ASC`). -/
def insertByIdAsc (r : ArbTransRow) : List ArbTransRow → List ArbTransRow
  | [] => [r]
  | s :: rest => if r.id ≤ s.id then r :: s :: rest else s :: insertByIdAsc r rest

/-- Ascending sort by `id` (models SQL `ORDER BY ID ASC`). -/
def orderByIdAsc : List ArbTransRow → List ArbTransRow
  | [] => []
  | r :: rest => insertByIdAsc r (orderByIdAsc rest)

/-- Result set of the query inside `checkNewTransactions`:
`SELECT ... FROM ARBITRAGE_TRANS WHERE STATUS = 1 AND ID > ? ORDER BY ID ASC`,
with `?` bound to the handler's `lastCheckedID`. -/
def selectNewSince (tbl : List ArbTransRow) (lastCheckedID : Nat) : List ArbTransRow :=
  orderByIdAsc (tbl.filter (fun r => r.status == 1 && lastCheckedID < r.id))

/-- Embedding of `ArbitrageTransHandler.checkNewTransactions`
(internal/trader/history_logger.go): runs the SELECT above and, for each
scanned row, assigns `h.lastCheckedID = id`. The function issues no UPDATE,
so the table is returned unchanged; the first component is the final
`lastCheckedID`. -/
def checkNewTransactions (tbl : List ArbTransRow) (lastCheckedID : Nat) :
    Nat × List ArbTransRow :=
  ((selectNewSince tbl lastCheckedID).foldl (fun _ r => r.id) lastCheckedID, tbl)

/-! ## Fleet heartbeat tracker (table DAEMON_STATE) -/

/-- Row of DAEMON_STATE. `lastHeartbeat` is a microsecond count; optional
columns are `Option`. -/
structure DaemonRow where
  id : Nat
  daemonName : String
  status : String
  role : String
  lastHeartbeat : Nat
  activeMonitoringId : Option Nat
  activeTradeId : Option Nat
  errorMessage : Option String
deriving DecidableEq

/-- Embedding of `manager.CheckDeadDaemon`: runs
`SELECT LAST_HEARTBEAT FROM DAEMON_STATE WHERE DAEMON_NAME = ? AND STATUS = 'RUNNING'`
(`QueryRow` takes the first matching row; `sql.ErrNoRows` yields `true`),
then reports dead when `time.Since(heartbeatTime)` strictly exceeds
`timeoutSec` seconds. All comparisons are done at microsecond resolution,
matching the stored precision; `Nat` truncated subtraction agrees with the
Go comparison because a nonnegative duration bound is never exceeded by a
negative elapsed time. -/
def checkDeadDaemon (tbl : List DaemonRow) (daemonName : String)
    (timeoutSec : Nat) (nowMicros : Nat) : Bool :=
  match tbl.find? (fun r => r.daemonName == daemonName && r.status == "RUNNING") with
  | none => true
  | some r => timeoutSec * 1000000 < nowMicros - r.lastHeartbeat

/-! ## Supporting lemmas: sorting and row maps -/

theorem insertByIdAsc_perm (r : ArbTransRow) (l : List ArbTransRow) :
    List.Perm (insertByIdAsc r l) (r :: l) := by
  induction l with
  | nil => exact List.Perm.refl _
  | cons s rest ih =>
      by_cases h : r.id ≤ s.id
      · simp [insertByIdAsc, h]
      · simp only [insertByIdAsc, h, if_false]
        exact List.Perm.trans (List.Perm.cons s ih) (List.Perm.swap r s rest)

theorem orderByIdAsc_perm (l : List ArbTransRow) :
    List.Perm (orderByIdAsc l) l := by
  induction l with
  | nil => exact List.Perm.refl _
  | cons r rest ih =>
      exact List.Perm.trans (insertByIdAsc_perm r (orderByIdAsc rest)) (List.Perm.cons r ih)

theorem insertByIdAsc_sorted (r : ArbTransRow) (l : List ArbTransRow)
    (h : l.Pairwise (fun a b => a.id ≤ b.id)) :
    (insertByIdAsc r l).Pairwise (fun a b => a.id ≤ b.id) := by
  induction l with
  | nil => simp [insertByIdAsc]
  | cons s rest ih =>
      rcases List.pairwise_cons.mp h with ⟨hs, hrest⟩
      by_cases hle : r.id ≤ s.id
      · simp only [insertByIdAsc, hle, if_true]
        refine List.pairwise_cons.mpr ⟨?_, h⟩
        intro x hx
        rcases List.mem_cons.mp hx with hx | hx
        · exact hx ▸ hle
        · exact Nat.le_trans hle (hs x hx)
      · simp only [insertByIdAsc, hle, if_false]
        refine List.pairwise_cons.mpr ⟨?_, ih hrest⟩
        intro x hx
        have hx2 := (insertByIdAsc_perm r rest).mem_iff.mp hx
        rcases List.mem_cons.mp hx2 with hx2 | hx2
        · exact hx2 ▸ Nat.le_of_not_le hle
        · exact hs x hx2

theorem orderByIdAsc_sorted (l : List ArbTransRow) :
    (orderByIdAsc l).Pairwise (fun a b => a.id ≤ b.id) := by
  induction l with
  | nil => simp [orderByIdAsc]
  | cons r rest ih => exact insertByIdAsc_sorted r _ ih

theorem foldl_pick_id (d : Nat) (l : List ArbTransRow) :
    l.foldl (fun _ r => r.id) d = (l.map ArbTransRow.id).getLastD d := by
  induction l generalizing d with
  | nil => rfl
  | cons r rest ih => rw [List.foldl_cons, ih, List.map_cons, List.getLastD_cons]

theorem eq_of_pairwise_name {tbl : List DaemonRow}
    (h : tbl.Pairwise (fun a b => a.daemonName ≠ b.daemonName))
    {a b : DaemonRow} (ha : a ∈ tbl) (hb : b ∈ tbl)
    (hn : a.daemonName = b.daemonName) : a = b := by
  induction tbl with
  | nil => cases ha
  | cons x rest ih =>
      rcases List.pairwise_cons.mp h with ⟨hx, hrest⟩
      rcases List.mem_cons.mp ha with ha | ha <;> rcases List.mem_cons.mp hb with hb | hb
      · exact ha.trans hb.symm
      · exact absurd (ha ▸ hn) (hx b hb)
      · exact absurd (hb ▸ hn.symm) (hx a ha)
      · exact ih hrest ha hb

/-! ## Claim theorems: arbitrage coordinator recovery (C1) -/

/-- C1 counterexample: a persisted ARBITRAGE_TRANS record with status
InProgress (2), whose owning worker (via `active_trade_id` in the worker
state table) is recorded as STOPPED, is NOT transitioned to Suspend (3) by
startup recovery: `RecoverSuspendedTransactions` only rewrites Suspend
records to New and leaves the InProgress record untouched. -/
theorem recover_inprogress_dead_worker_cex :
    ((([⟨1, "w1", "STOPPED", "trader", 40, none, some 10, none⟩] : List DaemonRow).find?
        (fun w => w.activeTradeId == some 10)).map DaemonRow.status = some "STOPPED"
      ∧ "STOPPED" ≠ "RUNNING")
    ∧ ((recoverSuspendedTransactions 100
          [⟨1, 10, 2, none, none, 0, 50⟩]).1.map ArbTransRow.status = [2]
      ∧ (2 : Nat) ≠ 3) := by
  decide

/-- C1 amended: `RecoverSuspendedTransactions` atomically rewrites every
record whose status is Suspend (3) to New (1) with an updated modification
timestamp, regardless of worker state; every record in any other status is
kept unchanged, and the reported affected-row count is the number of
Suspend records. -/
theorem recoverSuspendedTransactions_spec (nowMicros : Nat) (tbl : List ArbTransRow) :
    List.Forall₂ (fun r s =>
        (r.status = 3 → s = { r with status := 1, dateModify := nowMicros }) ∧
        (r.status ≠ 3 → s = r))
      tbl (recoverSuspendedTransactions nowMicros tbl).1 ∧
    (recoverSuspendedTransactions nowMicros tbl).2
      = (tbl.filter (fun r => r.status == 3)).length := by
  refine ⟨?_, rfl⟩
  induction tbl with
  | nil => exact List.Forall₂.nil
  | cons r rest ih =>
      refine List.Forall₂.cons ⟨?_, ?_⟩ ih
      · intro h3
        simp [recoverSuspendedTransactions, sqlUpdateWhere, h3]
      · intro h3
        simp [recoverSuspendedTransactions, sqlUpdateWhere, h3]

/-! ## Claim theorems: arbitrage coordinator polling (C2) -/

/-- C2 counterexample: one polling iteration over a table holding a single
New (status 1) record with id 5 returns the record in its selection and
advances `lastCheckedID` to 5, but performs no update: the record is still
in status New (1) afterwards, not InProgress (2). -/
theorem check_new_no_transition_cex :
    checkNewTransactions [⟨5, 10, 1, none, none, 0, 0⟩] 0
        = (5, [⟨5, 10, 1, none, none, 0, 0⟩])
    ∧ ([⟨5, 10, 1, none, none, 0, 0⟩] : List ArbTransRow).map ArbTransRow.status = [1]
    ∧ (1 : Nat) ≠ 2 := by
  decide

/-- C2 amended: each polling iteration selects exactly the records whose
status is New (1) and whose id exceeds the handler's `lastCheckedID`, in
ascending id order, and advances `lastCheckedID` to the id of the last
selected record (keeping it unchanged when nothing is selected); it issues
no UPDATE, so the table is returned unchanged and no record changes
status. -/
theorem checkNewTransactions_spec (tbl : List ArbTransRow) (lastCheckedID : Nat) :
    (checkNewTransactions tbl lastCheckedID).2 = tbl ∧
    (∀ r, r ∈ selectNewSince tbl lastCheckedID
        ↔ (r ∈ tbl ∧ r.status = 1 ∧ lastCheckedID < r.id)) ∧
    (selectNewSince tbl lastCheckedID).Pairwise (fun a b => a.id ≤ b.id) ∧
    (checkNewTransactions tbl lastCheckedID).1
      = ((selectNewSince tbl lastCheckedID).map ArbTransRow.id).getLastD lastCheckedID := by
  refine ⟨rfl, ?_, orderByIdAsc_sorted _, foldl_pick_id _ _⟩
  intro r
  rw [selectNewSince, (orderByIdAsc_perm _).mem_iff, List.mem_filter]
  simp [and_assoc]

/-! ## Claim theorems: dead-worker detection (C6) -/

/-- C6: `CheckDeadDaemon` returns true exactly when either no row with the
given worker name and status RUNNING exists, or such a row exists and the
time elapsed since its last heartbeat strictly exceeds `timeoutSec`
seconds; in particular a RUNNING worker whose heartbeat is older than the
timeout is reported dead. The worker name is unique in DAEMON_STATE per
the schema, which the hypothesis records. -/
theorem checkDeadDaemon_iff (tbl : List DaemonRow) (name : String)
    (timeoutSec nowMicros : Nat)
    (huniq : tbl.Pairwise (fun a b => a.daemonName ≠ b.daemonName)) :
    checkDeadDaemon tbl name timeoutSec nowMicros = true ↔
      ((∀ r ∈ tbl, ¬(r.daemonName = name ∧ r.status = "RUNNING")) ∨
       (∃ r ∈ tbl, r.daemonName = name ∧ r.status = "RUNNING" ∧
          timeoutSec * 1000000 < nowMicros - r.lastHeartbeat)) := by
  unfold checkDeadDaemon
  cases hfind : tbl.find? (fun r => r.daemonName == name && r.status == "RUNNING") with
  | none =>
      constructor
      · intro _
        left
        intro r hr hcontra
        have hnot := List.find?_eq_none.mp hfind r hr
        simp [hcontra.1, hcontra.2] at hnot
      · intro _
        rfl
  | some r =>
      have hrmem := List.mem_of_find?_eq_some hfind
      have hrpred := List.find?_some hfind
      rw [Bool.and_eq_true, beq_iff_eq, beq_iff_eq] at hrpred
      constructor
      · intro hdead
        right
        exact ⟨r, hrmem, hrpred.1, hrpred.2, by simpa using hdead⟩
      · rintro (hnone | ⟨s, hs, hs1, hs2, hs3⟩)
        · exact absurd ⟨hrpred.1, hrpred.2⟩ (hnone r hrmem)
        · have hsr : s = r :=
            eq_of_pairwise_name huniq hs hrmem (by rw [hs1, hrpred.1])
          subst hsr
          simpa using hs3

/-- Witness for the C6 theorem: a table with a single RUNNING worker whose
heartbeat (1000 µs) is far older than the 10 s timeout at the probed
instant; the worker is reported dead. -/
theorem checkDeadDaemon_iff_witness :
    (([⟨1, "w1", "RUNNING", "both", 1000, none, none, none⟩] : List DaemonRow).Pairwise
        (fun a b => a.daemonName ≠ b.daemonName)) ∧
    (checkDeadDaemon [⟨1, "w1", "RUNNING", "both", 1000, none, none, none⟩]
        "w1" 10 20000000 = true ↔
      ((∀ r ∈ ([⟨1, "w1", "RUNNING", "both", 1000, none, none, none⟩] : List DaemonRow),
          ¬(r.daemonName = "w1" ∧ r.status = "RUNNING")) ∨
       (∃ r ∈ ([⟨1, "w1", "RUNNING", "both", 1000, none, none, none⟩] : List DaemonRow),
          r.daemonName = "w1" ∧ r.status = "RUNNING" ∧
            10 * 1000000 < 20000000 - r.lastHeartbeat))) :=
  ⟨List.pairwise_singleton _ _,
    checkDeadDaemon_iff _ "w1" 10 20000000 (List.pairwise_singleton _ _)⟩

/-! ## Task model (package exchange, used by the fetcher and the
subscription manager) -/

/-- Monitoring task as built by `Fetcher.fetchMonitoringTasks` from the
MONITORING join. -/
structure MonitoringTask where
  id : Nat
  uid : Nat
  exchangeID : String
  exchangeName : String
  marketType : String
  tradePairID : Nat
  tradePair : String
  orderbookDepth : Nat
  batchSize : Nat
  batchIntervalSec : Nat
  ringBufferSize : Nat
  saveIntervalSec : Nat
deriving DecidableEq

/-- Trading task as built by `Fetcher.fetchTradingTasks` from the TRADE
join; `strategyParams` holds the marshalled JSON string. -/
structure TradingTask where
  id : Nat
  uid : Nat
  tradeType : Nat
  exchangeID : String
  exchangeName : String
  marketType : String
  tradePairID : Nat
  tradePair : String
  strategyID : String
  strategyParams : String
  exchangeAccountID : Nat
deriving DecidableEq

/-! ## Task fetcher (package task, Fetcher) -/

/-- Mutable state of `task.Fetcher`: the last successfully loaded task
lists. -/
structure FetcherState where
  lastMonitoring : List MonitoringTask
  lastTrading : List TradingTask
deriving DecidableEq

/-- Embedding of `Fetcher.fetchTasks`: runs the monitoring query, then the
trading query (each may fail, given here as `Except` inputs since they are
database reads), and only when both succeed replaces the stored lists
under the mutex. On any error the stored state is untouched. -/
def fetchTasks (st : FetcherState)
    (monitoringResult : Except String (List MonitoringTask))
    (tradingResult : Except String (List TradingTask)) :
    Except String Unit × FetcherState :=
  match monitoringResult with
  | .error e => (.error ("fetch monitoring tasks failed: " ++ e), st)
  | .ok monitoring =>
    match tradingResult with
    | .error e => (.error ("fetch trading tasks failed: " ++ e), st)
    | .ok trading => (.ok (), ⟨monitoring, trading⟩)

/-- Embedding of `Fetcher.GetLast`: returns (copies of) the stored task
lists. -/
def getLast (st : FetcherState) : List MonitoringTask × List TradingTask :=
  (st.lastMonitoring, st.lastTrading)

/-- One tick of `Fetcher.fetchLoop`: calls `fetchTasks`; an error is only
printed, so the loop keeps running (second component `true`) either way. -/
def fetchLoopStep (st : FetcherState)
    (monitoringResult : Except String (List MonitoringTask))
    (tradingResult : Except String (List TradingTask)) :
    FetcherState × Bool :=
  ((fetchTasks st monitoringResult tradingResult).2, true)

/-- C7: when the monitoring query or the trading query fails, `fetchTasks`
returns the error, the stored snapshot is unchanged, `GetLast` keeps
returning the previously fetched lists, and the fetch loop keeps
running. -/
theorem fetch_failure_keeps_snapshot (st : FetcherState)
    (monitoringResult : Except String (List MonitoringTask))
    (tradingResult : Except String (List TradingTask))
    (herr : (∃ e, monitoringResult = .error e) ∨ (∃ e, tradingResult = .error e)) :
    (∃ e2, (fetchTasks st monitoringResult tradingResult).1 = .error e2) ∧
    (fetchTasks st monitoringResult tradingResult).2 = st ∧
    getLast (fetchLoopStep st monitoringResult tradingResult).1 = getLast st ∧
    (fetchLoopStep st monitoringResult tradingResult).2 = true := by
  rcases herr with ⟨e, he⟩ | ⟨e, he⟩
  · subst he
    exact ⟨⟨_, rfl⟩, rfl, rfl, rfl⟩
  · cases monitoringResult with
    | error e2 => exact ⟨⟨_, rfl⟩, rfl, rfl, rfl⟩
    | ok monitoring =>
        subst he
        exact ⟨⟨_, rfl⟩, rfl, rfl, rfl⟩

/-- Witness for the C7 theorem: a failed monitoring query against a
nonempty stored snapshot leaves the snapshot as is. -/
theorem fetch_failure_keeps_snapshot_witness :
    ((∃ e, (Except.error "db down" : Except String (List MonitoringTask))
        = .error e) ∨
      (∃ e, (Except.ok [] : Except String (List TradingTask)) = .error e)) ∧
    ((∃ e2, (fetchTasks ⟨[], []⟩ (.error "db down") (.ok [])).1 = .error e2) ∧
     (fetchTasks ⟨[], []⟩ (.error "db down") (.ok [])).2 = (⟨[], []⟩ : FetcherState) ∧
     getLast (fetchLoopStep ⟨[], []⟩ (.error "db down") (.ok [])).1
        = getLast ⟨[], []⟩ ∧
     (fetchLoopStep ⟨[], []⟩ (.error "db down") (.ok [])).2 = true) :=
  ⟨Or.inl ⟨"db down", rfl⟩,
    fetch_failure_keeps_snapshot ⟨[], []⟩ (.error "db down") (.ok [])
      (Or.inl ⟨"db down", rfl⟩)⟩

/-! ## Trade history logger (internal/trader/history_logger.go) -/

/-- Executed-order row buffered by the trade history logger. -/
structure OrderExecution where
  tradeID : Nat
  orderID : String
  exchangeID : String
  tradePairID : Nat
  tradePair : String
  exchangeAccountID : Nat
  side : String
  price : Rat
  amount : Rat
  commission : Rat
  commissionAsset : String
  status : String
  executedAtMicros : Nat
  profitLoss : Option Rat
deriving DecidableEq

/-- Mutable state of `TradeHistoryLogger`: the buffered rows and the
configured flush threshold. -/
structure HistLoggerState where
  buffer : List OrderExecution
  maxBuffer : Nat
deriving DecidableEq

/-- Outcome of the batch INSERT as reported by the database driver:
`db.Exec` itself may fail, `RowsAffected` may fail, or a row count is
reported. -/
inductive ExecOutcome where
  | execError (e : String)
  | rowsAffectedError (e : String)
  | rowsAffected (n : Nat)
deriving DecidableEq

/-- Embedding of `TradeHistoryLogger.flushUnsafe`: an empty buffer returns
nil without touching the database; otherwise the multi-row INSERT into
TRADE_HISTORY is issued and the driver reports `dbOutcome`. The buffer is
replaced by a fresh empty one exactly when the reported affected-row count
equals the buffer length; in every other case (exec error, RowsAffected
error, count mismatch) the buffer is kept. -/
def flushUnsafe (st : HistLoggerState) (dbOutcome : ExecOutcome) :
    Except String Unit × HistLoggerState :=
  if st.buffer.length = 0 then (.ok (), st)
  else
    match dbOutcome with
    | .execError e => (.error ("batch insert failed: " ++ e), st)
    | .rowsAffectedError e => (.error e, st)
    | .rowsAffected n =>
        if n = st.buffer.length then (.ok (), { st with buffer := [] })
        else (.ok (), st)

/-- Embedding of `TradeHistoryLogger.LogOrderExecution`: a nil order is
rejected; otherwise the order is appended and a flush is triggered when
the buffer reaches `maxBuffer`. -/
def logOrderExecution (st : HistLoggerState) (order : Option OrderExecution)
    (dbOutcome : ExecOutcome) : Except String Unit × HistLoggerState :=
  match order with
  | none => (.error "order cannot be nil", st)
  | some o =>
      let st2 : HistLoggerState := { st with buffer := st.buffer ++ [o] }
      if st.maxBuffer ≤ st2.buffer.length then flushUnsafe st2 dbOutcome
      else (.ok (), st2)

/-- C8: when the flush fails (the insert errors, `RowsAffected` errors, or
the reported count differs from the buffer length) the buffered rows are
retained unchanged; and whenever a nonempty buffer comes out empty, the
insert reported exactly the buffer length. -/
theorem flushUnsafe_retention (st : HistLoggerState) (dbOutcome : ExecOutcome) :
    (((∃ e, dbOutcome = .execError e) ∨ (∃ e, dbOutcome = .rowsAffectedError e) ∨
        (∃ n, dbOutcome = .rowsAffected n ∧ n ≠ st.buffer.length)) →
      (flushUnsafe st dbOutcome).2.buffer = st.buffer) ∧
    (((flushUnsafe st dbOutcome).2.buffer = [] ∧ st.buffer ≠ []) →
      dbOutcome = .rowsAffected st.buffer.length) := by
  constructor
  · intro hbad
    by_cases hempty : st.buffer.length = 0
    · simp [flushUnsafe, hempty]
    · rcases hbad with ⟨e, he⟩ | ⟨e, he⟩ | ⟨n, he, hne⟩
      · subst he; simp [flushUnsafe, hempty]
      · subst he; simp [flushUnsafe, hempty]
      · subst he; simp [flushUnsafe, hempty, hne]
  · rintro ⟨hout, hne⟩
    have hempty : ¬ st.buffer.length = 0 := by
      intro h0
      exact hne (List.length_eq_zero.mp h0)
    cases dbOutcome with
    | execError e => simp [flushUnsafe, hempty] at hout; exact absurd hout hne
    | rowsAffectedError e => simp [flushUnsafe, hempty] at hout; exact absurd hout hne
    | rowsAffected n =>
        by_cases hn : n = st.buffer.length
        · exact hn ▸ rfl
        · simp [flushUnsafe, hempty, hn] at hout
          exact absurd hout hne

/-- Witness for the C8 theorem: a one-row buffer whose insert fails is
retained for retry. -/
theorem flushUnsafe_retention_witness :
    ((∃ e, (ExecOutcome.execError "deadlock") = ExecOutcome.execError e) ∨
      (∃ e, (ExecOutcome.execError "deadlock") = ExecOutcome.rowsAffectedError e) ∨
      (∃ n, (ExecOutcome.execError "deadlock") = ExecOutcome.rowsAffected n ∧
        n ≠ (⟨[⟨1, "o1", "binance", 2, "BTC/USDT", 3, "BUY", 10, 1, 0, "USDT",
          "FILLED", 77, none⟩], 500⟩ : HistLoggerState).buffer.length)) ∧
    (flushUnsafe ⟨[⟨1, "o1", "binance", 2, "BTC/USDT", 3, "BUY", 10, 1, 0, "USDT",
        "FILLED", 77, none⟩], 500⟩ (.execError "deadlock")).2.buffer
      = [⟨1, "o1", "binance", 2, "BTC/USDT", 3, "BUY", 10, 1, 0, "USDT",
        "FILLED", 77, none⟩] :=
  ⟨Or.inl ⟨"deadlock", rfl⟩,
    (flushUnsafe_retention _ _).1 (Or.inl ⟨"deadlock", rfl⟩)⟩

/-! ## Go map primitives

Go maps keyed by strings are embedded as association lists with unique
keys: assignment `m[k] = v` overwrites in place when the key is present
and appends otherwise; lookup returns the value at the key. Go randomizes
iteration order, which is modelled separately where it matters. -/

/-- Lookup in an association list (first match; keys are kept unique by
`goMapInsert`). -/
def lookupStr {α : Type} : List (String × α) → String → Option α
  | [], _ => none
  | (k2, v) :: rest, k => if k2 = k then some v else lookupStr rest k

/-- Assignment `m[k] = v` on a Go map. -/
def goMapInsert {α : Type} : List (String × α) → String → α → List (String × α)
  | [], k, v => [(k, v)]
  | (k2, v2) :: rest, k, v =>
      if k2 = k then (k, v) :: rest else (k2, v2) :: goMapInsert rest k v

/-! ## WebSocket pool (internal/core/ws/ws.go) -/

/-- Correlation map entry: the request id and its creation instant
(seconds of UTC wall clock, resolution irrelevant to the claims). -/
structure CorrelationEntry where
  requestID : String
  createdAt : Nat
deriving DecidableEq

/-- State of `ws.Pool` relevant to subscribe and unsubscribe: the
event-to-request correlation map. -/
structure WSPool where
  eventToRequestID : List (String × CorrelationEntry)
deriving DecidableEq

/-- Embedding of `newEventID`: eight random bytes are hex-encoded after the
tag; when `crypto/rand` fails the UTC nanosecond clock is used instead.
The random read is an external source, passed in as `randHex`. -/
def newEventID (tag : String) (randHex : Option String) (nowNanos : Nat) : String :=
  match randHex with
  | some h => tag ++ "-" ++ h
  | none => tag ++ "-" ++ toString nowNanos

/-- Embedding of `Pool.rememberCorrelation`: empty event or request ids are
not recorded; otherwise the entry is stored under the event id. -/
def rememberCorrelation (p : WSPool) (eventID requestID : String) (nowUTC : Nat) :
    WSPool :=
  if eventID = "" || requestID = "" then p
  else ⟨goMapInsert p.eventToRequestID eventID ⟨requestID, nowUTC⟩⟩

/-- Embedding of `Pool.SubscribeWithRequestID`: an empty pairs list is an
error; otherwise a fresh event id is generated with tag `ws-sub`, the
correlation is remembered, the subscribe is logged and the event id
returned. -/
def subscribeWithRequestID (p : WSPool) (exchangeID marketType : String)
    (pairs : List String) (depth : Nat) (requestID : String)
    (randHex : Option String) (nowNanos nowUTC : Nat) :
    Except String String × WSPool :=
  if pairs.length = 0 then (.error "pairs list is empty", p)
  else
    let eventID := newEventID "ws-sub" randHex nowNanos
    (.ok eventID, rememberCorrelation p eventID requestID nowUTC)

/-- Embedding of `Pool.UnsubscribeWithRequestID`: as for subscribe, with
tag `ws-unsub`. -/
def unsubscribeWithRequestID (p : WSPool) (exchangeID marketType : String)
    (pairs : List String) (requestID : String)
    (randHex : Option String) (nowNanos nowUTC : Nat) :
    Except String String × WSPool :=
  if pairs.length = 0 then (.error "pairs list is empty", p)
  else
    let eventID := newEventID "ws-unsub" randHex nowNanos
    (.ok eventID, rememberCorrelation p eventID requestID nowUTC)

/-- Embedding of `Pool.Subscribe`: delegates to `SubscribeWithRequestID`
with an empty request id and discards the event id. -/
def wsSubscribe (p : WSPool) (exchangeID marketType : String)
    (pairs : List String) (depth : Nat)
    (randHex : Option String) (nowNanos nowUTC : Nat) :
    Except String Unit × WSPool :=
  let r := subscribeWithRequestID p exchangeID marketType pairs depth ""
    randHex nowNanos nowUTC
  (r.1.map (fun _ => ()), r.2)

/-- Embedding of `Pool.Unsubscribe`: delegates to
`UnsubscribeWithRequestID` with an empty request id and discards the event
id. -/
def wsUnsubscribe (p : WSPool) (exchangeID marketType : String)
    (pairs : List String)
    (randHex : Option String) (nowNanos nowUTC : Nat) :
    Except String Unit × WSPool :=
  let r := unsubscribeWithRequestID p exchangeID marketType pairs ""
    randHex nowNanos nowUTC
  (r.1.map (fun _ => ()), r.2)

/-- C10: each of Subscribe, SubscribeWithRequestID, Unsubscribe and
UnsubscribeWithRequestID fails exactly when the pairs list is empty, and
on a nonempty pairs list succeeds, the WithRequestID variants returning
the freshly generated event id. -/
theorem ws_subscribe_error_iff_empty (p : WSPool) (exchangeID marketType : String)
    (pairs : List String) (depth : Nat) (requestID : String)
    (randHex : Option String) (nowNanos nowUTC : Nat) :
    ((∃ e, (subscribeWithRequestID p exchangeID marketType pairs depth requestID
        randHex nowNanos nowUTC).1 = .error e) ↔ pairs = []) ∧
    (pairs ≠ [] →
      (subscribeWithRequestID p exchangeID marketType pairs depth requestID
        randHex nowNanos nowUTC).1 = .ok (newEventID "ws-sub" randHex nowNanos)) ∧
    ((∃ e, (unsubscribeWithRequestID p exchangeID marketType pairs requestID
        randHex nowNanos nowUTC).1 = .error e) ↔ pairs = []) ∧
    (pairs ≠ [] →
      (unsubscribeWithRequestID p exchangeID marketType pairs requestID
        randHex nowNanos nowUTC).1 = .ok (newEventID "ws-unsub" randHex nowNanos)) ∧
    ((∃ e, (wsSubscribe p exchangeID marketType pairs depth
        randHex nowNanos nowUTC).1 = .error e) ↔ pairs = []) ∧
    (pairs ≠ [] →
      (wsSubscribe p exchangeID marketType pairs depth
        randHex nowNanos nowUTC).1 = .ok ()) ∧
    ((∃ e, (wsUnsubscribe p exchangeID marketType pairs
        randHex nowNanos nowUTC).1 = .error e) ↔ pairs = []) ∧
    (pairs ≠ [] →
      (wsUnsubscribe p exchangeID marketType pairs
        randHex nowNanos nowUTC).1 = .ok ()) := by
  cases pairs with
  | nil =>
      refine ⟨⟨fun _ => rfl, fun _ => ⟨_, rfl⟩⟩, ?_, ⟨fun _ => rfl, fun _ => ⟨_, rfl⟩⟩,
        ?_, ⟨fun _ => rfl, fun _ => ⟨_, rfl⟩⟩, ?_, ⟨fun _ => rfl, fun _ => ⟨_, rfl⟩⟩, ?_⟩ <;>
        exact fun h => absurd rfl h
  | cons q qs =>
      refine ⟨⟨?_, ?_⟩, fun _ => rfl, ⟨?_, ?_⟩, fun _ => rfl,
        ⟨?_, ?_⟩, fun _ => rfl, ⟨?_, ?_⟩, fun _ => rfl⟩ <;>
        first
        | (rintro ⟨e, he⟩
           simp [subscribeWithRequestID, unsubscribeWithRequestID,
             wsSubscribe, wsUnsubscribe, Except.map] at he)
        | (intro h; cases h)

/-- Witness for the C10 theorem: a singleton pairs list subscribes
successfully with the generated event id. -/
theorem ws_subscribe_error_iff_empty_witness :
    (["BTC/USDT"] ≠ ([] : List String)) ∧
    (subscribeWithRequestID ⟨[]⟩ "binance" "spot" ["BTC/USDT"] 20 "req-1"
        (some "aabbccdd00112233") 5 6).1
      = .ok (newEventID "ws-sub" (some "aabbccdd00112233") 5) :=
  ⟨by decide,
    ((ws_subscribe_error_iff_empty ⟨[]⟩ "binance" "spot" ["BTC/USDT"] 20 "req-1"
        (some "aabbccdd00112233") 5 6).2.1) (by decide)⟩

/-! ## Configuration loading (internal/config/config.go)

The INI file is a list of sections, each a list of key-value pairs. The
`go-ini` accessors are embedded with their documented library semantics:
`Key(...).String()` yields the raw value or the empty string, and the
`Must*` accessors substitute the given default when the key is absent,
empty (for strings) or unparsable. `ini.Load` on an absent file fails,
exactly as the Load doc comment in config.go records (it returns an error
when the file is not found). Decimal values are held as `Rat`; exponent
notation is not needed by any claim and is treated as unparsable. -/

/-- Parsed INI file. -/
structure IniFile where
  sections : List (String × List (String × String))
deriving DecidableEq

/-- Modelled from the spec: `ini.Load` (library go-ini, not part of src/)
opens and parses the file at the given path; an absent file yields the
open error. The file system is passed as `Option IniFile`. -/
def iniLoad (file : Option IniFile) : Except String IniFile :=
  match file with
  | none => .error "open config: no such file or directory"
  | some f => .ok f

/-- Raw value of `Section(sec).Key(key)` when the key is present. -/
def iniKeyValue (f : IniFile) (sec key : String) : Option String :=
  match lookupStr f.sections sec with
  | none => none
  | some kvs => lookupStr kvs key

/-- Library semantics of `Key(...).String()`: empty string when absent. -/
def iniString (f : IniFile) (sec key : String) : String :=
  (iniKeyValue f sec key).getD ""

/-- Library semantics of `MustString`: the default replaces an absent or
empty value. -/
def mustString (f : IniFile) (sec key dflt : String) : String :=
  let v := iniString f sec key
  if v = "" then dflt else v

/-- Library semantics of `MustInt`: the default replaces an absent or
unparsable value. -/
def mustInt (f : IniFile) (sec key : String) (dflt : Int) : Int :=
  match iniKeyValue f sec key with
  | none => dflt
  | some s => (s.toInt?).getD dflt

/-- Boolean literals accepted by `strconv.ParseBool`. -/
def parseGoBool? (s : String) : Option Bool :=
  if s = "1" ∨ s = "t" ∨ s = "T" ∨ s = "TRUE" ∨ s = "true" ∨ s = "True" then
    some true
  else if s = "0" ∨ s = "f" ∨ s = "F" ∨ s = "FALSE" ∨ s = "false" ∨ s = "False" then
    some false
  else none

/-- Library semantics of `MustBool`. -/
def mustBool (f : IniFile) (sec key : String) (dflt : Bool) : Bool :=
  match iniKeyValue f sec key with
  | none => dflt
  | some s => (parseGoBool? s).getD dflt

/-- Plain decimal parser for `MustFloat64` values: optional sign, integer
digits, optional fraction. -/
def parseDecimal? (s : String) : Option Rat :=
  let core : String → Option Rat := fun t =>
    match t.split (fun c => c = '.') with
    | [a] => (a.toNat?).map (fun n => (n : Rat))
    | [a, b] =>
        match a.toNat?, b.toNat? with
        | some n, some m => some ((n : Rat) + (m : Rat) / ((10 : Rat) ^ b.length))
        | _, _ => none
    | _ => none
  if s.startsWith "-" then (core (s.drop 1)).map Neg.neg else core s

/-- Library semantics of `MustFloat64`. -/
def mustFloat64 (f : IniFile) (sec key : String) (dflt : Rat) : Rat :=
  match iniKeyValue f sec key with
  | none => dflt
  | some s => (parseDecimal? s).getD dflt

/-- DatabaseConfig of internal/config. `typ` embeds the Go field `Type`. -/
structure DatabaseConfig where
  typ : String
  user : String
  password : String
  host : String
  port : Int
  name : String
  useTLS : Bool
  caCert : String
  clientCert : String
  clientKey : String
  tlsSkipVerify : Bool
  connectTimeoutSec : Int
  maxRetries : Int
deriving DecidableEq

/-- ServerConfig of internal/config. -/
structure ServerConfig where
  port : Int
  stateFile : String
deriving DecidableEq

/-- LogConfig of internal/config. -/
structure LogConfig where
  level : String
  dir : String
  maxFileSizeMB : Int
deriving DecidableEq

/-- TradeConfig of internal/config. -/
structure TradeConfig where
  updateInterval : Int
deriving DecidableEq

/-- OrderBookConfig of internal/config. -/
structure OrderBookConfig where
  debugLogRaw : Bool
  debugLogMsg : Bool
deriving DecidableEq

/-- MonitorConfig of internal/config. -/
structure MonitorConfig where
  orderBookDepth : Int
  batchSize : Int
  batchIntervalSec : Int
  ringBufferSize : Int
  saveInterval : Int
deriving DecidableEq

/-- TraderConfig of internal/config. -/
structure TraderConfig where
  maxOpenOrders : Int
  maxPositionSize : Rat
  defaultStrategy : String
  strategyUpdateInterval : Int
  slippagePercent : Rat
  enableBacktest : Bool
deriving DecidableEq

/-- ClickHouseConfig of internal/config. -/
structure ClickHouseConfig where
  host : String
  port : Int
  database : String
  username : String
  password : String
  useTLS : Bool
  tlsSkipVerify : Bool
  connectTimeoutSec : Int
  maxRetries : Int
  compression : Bool
  maxBatchSize : Int
  replicationFactor : Int
deriving DecidableEq

/-- Top-level Config of internal/config. -/
structure Config where
  database : DatabaseConfig
  server : ServerConfig
  log : LogConfig
  trade : TradeConfig
  orderBook : OrderBookConfig
  role : String
  monitor : MonitorConfig
  trader : TraderConfig
  clickHouse : ClickHouseConfig
deriving DecidableEq

/-- Embedding of `config.Load`: parse the INI file (failing when the file
is absent) and read every parameter with its default from the source. -/
def loadConfig (file : Option IniFile) : Except String Config :=
  match iniLoad file with
  | .error e => .error ("failed to load config file: " ++ e)
  | .ok cfg => .ok {
      database := {
        typ := mustString cfg "database" "type" "mysql"
        user := iniString cfg "database" "user"
        password := iniString cfg "database" "password"
        host := iniString cfg "database" "host"
        port := mustInt cfg "database" "port" 3306
        name := iniString cfg "database" "name"
        useTLS := mustBool cfg "database" "use_tls" false
        caCert := iniString cfg "database" "ca_cert"
        clientCert := iniString cfg "database" "client_cert"
        clientKey := iniString cfg "database" "client_key"
        tlsSkipVerify := mustBool cfg "database" "tls_skip_verify" false
        connectTimeoutSec := mustInt cfg "database" "connect_timeout_sec" 10
        maxRetries := mustInt cfg "database" "max_retries" 0 }
      server := {
        port := mustInt cfg "server" "port" 8080
        stateFile := mustString cfg "server" "state_file" "state.json" }
      log := {
        level := mustString cfg "log" "level" "info"
        dir := mustString cfg "log" "dir" "./logs"
        maxFileSizeMB := mustInt cfg "log" "max_file_size_mb" 10 }
      trade := { updateInterval := mustInt cfg "trade" "update_interval" 5 }
      orderBook := {
        debugLogRaw := mustBool cfg "orderbook" "debug_log_raw" false
        debugLogMsg := mustBool cfg "orderbook" "debug_log_msg" false }
      role := mustString cfg "role" "mode" "monitor"
      monitor := {
        orderBookDepth := mustInt cfg "monitor" "orderbook_depth" 20
        batchSize := mustInt cfg "monitor" "batch_size" 500
        batchIntervalSec := mustInt cfg "monitor" "batch_interval_sec" 5
        ringBufferSize := mustInt cfg "monitor" "ring_buffer_size" 10000
        saveInterval := mustInt cfg "monitor" "save_interval" 5 }
      trader := {
        maxOpenOrders := mustInt cfg "trader" "max_open_orders" 10
        maxPositionSize := mustFloat64 cfg "trader" "max_position_size" 1000
        defaultStrategy := mustString cfg "trader" "default_strategy" "grid"
        strategyUpdateInterval := mustInt cfg "trader" "strategy_update_interval" 10
        slippagePercent := mustFloat64 cfg "trader" "slippage_percent" (1/2)
        enableBacktest := mustBool cfg "trader" "enable_backtest" false }
      clickHouse := {
        host := mustString cfg "clickhouse" "host" "localhost"
        port := mustInt cfg "clickhouse" "port" 8123
        database := mustString cfg "clickhouse" "database" "crypto"
        username := iniString cfg "clickhouse" "username"
        password := iniString cfg "clickhouse" "password"
        useTLS := mustBool cfg "clickhouse" "use_tls" false
        tlsSkipVerify := mustBool cfg "clickhouse" "tls_skip_verify" false
        connectTimeoutSec := mustInt cfg "clickhouse" "connect_timeout_sec" 10
        maxRetries := mustInt cfg "clickhouse" "max_retries" 3
        compression := mustBool cfg "clickhouse" "compression" true
        maxBatchSize := mustInt cfg "clickhouse" "max_batch_size" 10000
        replicationFactor := mustInt cfg "clickhouse" "replication_factor" 1 } }

/-- C9 counterexample: loading with the configuration file absent does not
succeed — `ini.Load` fails and `Load` propagates the error, so no
configuration (with or without defaults) is produced. -/
theorem load_config_absent_fails_cex :
    loadConfig none
      = .error "failed to load config file: open config: no such file or directory"
    ∧ (∀ c : Config, loadConfig none ≠ .ok c) := by
  refine ⟨rfl, ?_⟩
  intro c h
  simp [loadConfig, iniLoad] at h

/-- C9 amended: `Load` fails when the configuration file is absent; when
the file is present but sets no keys, it succeeds and every configuration
parameter receives its documented default value. -/
theorem load_config_defaults :
    (∀ c : Config, loadConfig none ≠ .ok c) ∧
    loadConfig (some ⟨[]⟩) = .ok {
      database := { typ := "mysql", user := "", password := "", host := ""
                    port := 3306, name := "", useTLS := false, caCert := ""
                    clientCert := "", clientKey := "", tlsSkipVerify := false
                    connectTimeoutSec := 10, maxRetries := 0 }
      server := { port := 8080, stateFile := "state.json" }
      log := { level := "info", dir := "./logs", maxFileSizeMB := 10 }
      trade := { updateInterval := 5 }
      orderBook := { debugLogRaw := false, debugLogMsg := false }
      role := "monitor"
      monitor := { orderBookDepth := 20, batchSize := 500, batchIntervalSec := 5
                   ringBufferSize := 10000, saveInterval := 5 }
      trader := { maxOpenOrders := 10, maxPositionSize := 1000
                  defaultStrategy := "grid", strategyUpdateInterval := 10
                  slippagePercent := 1/2, enableBacktest := false }
      clickHouse := { host := "localhost", port := 8123, database := "crypto"
                      username := "", password := "", useTLS := false
                      tlsSkipVerify := false, connectTimeoutSec := 10
                      maxRetries := 3, compression := true, maxBatchSize := 10000
                      replicationFactor := 1 } } := by
  constructor
  · intro c h
    simp [loadConfig, iniLoad] at h
  · rfl

/-! ## Subscription manager (package task, SubscriptionManager)

The Go `Merge` builds maps `newMonitoring`, `newTrading` from the slices
of the incoming `TasksData` (slice iteration is in order, so the builds
are deterministic), computes the subscribe and unsubscribe deltas against
the previous maps, and replaces the stored state. Go randomizes map
iteration order, so every loop `for k, v := range m` is embedded as a fold
over an explicit iteration sequence constrained to enumerate `m`:
a permutation for a flat map, and `MapIter` for a map of maps (outer
permutation plus a permutation of each inner map). -/

/-- Modelled from the spec: `exchange.GetMonitoringTaskKey` (package
exchange, not under src/) returns the dedup key
`exchangeID:marketType:tradePair`, e.g. `binance:spot:BTC/USDT`. -/
def GetMonitoringTaskKey (t : MonitoringTask) : String :=
  t.exchangeID ++ ":" ++ t.marketType ++ ":" ++ t.tradePair

/-- Modelled from the spec: `exchange.GetTradingTaskKey` (package
exchange, not under src/) returns the dedup key
`exchangeID:marketType:tradePair:strategyID`. -/
def GetTradingTaskKey (t : TradingTask) : String :=
  t.exchangeID ++ ":" ++ t.marketType ++ ":" ++ t.tradePair ++ ":" ++ t.strategyID

/-- Incoming task snapshot (`task.TasksData`). -/
structure TasksData where
  timestamp : Nat
  monitoringTasks : List MonitoringTask
  tradingTasks : List TradingTask
deriving DecidableEq

/-- Stored state of `SubscriptionManager`: the previous task maps. -/
structure SubscriptionManagerState where
  lastMonitoring : List (String × MonitoringTask)
  lastTrading : List (String × TradingTask)
deriving DecidableEq

/-- One group of pairs on one exchange and market (`task.Subscription`). -/
structure Subscription where
  exchangeID : String
  marketType : String
  pairs : List String
  depth : Nat
deriving DecidableEq

/-- Subscribe and unsubscribe deltas (`task.SubscriptionDiff`). -/
structure SubscriptionDiff where
  toSubscribe : List Subscription
  unsubscribe : List Subscription
deriving DecidableEq

/-- The `newMonitoring` map built at the top of `Merge` by assigning each
task under its key, in slice order. -/
def buildMonitoringMap (tasks : List MonitoringTask) : List (String × MonitoringTask) :=
  tasks.foldl (fun m t => goMapInsert m (GetMonitoringTaskKey t) t) []

/-- The `newTrading` map built at the top of `Merge`. -/
def buildTradingMap (tasks : List TradingTask) : List (String × TradingTask) :=
  tasks.foldl (fun m t => goMapInsert m (GetTradingTaskKey t) t) []

/-- Key `exchangeID:marketType` used for `pairsByExchangeMarket`. -/
def emKeyOf (exchangeID marketType : String) : String :=
  exchangeID ++ ":" ++ marketType

/-- Embedding of `splitExchangeMarket`: split on every colon, dropping a
trailing empty segment. -/
def splitExchangeMarket (key : String) : List String :=
  let r := key.toList.foldl
    (fun (st : List String × String) ch =>
      if ch = ':' then (st.1 ++ [st.2], "") else (st.1, st.2.push ch))
    ([], "")
  if r.2 ≠ "" then r.1 ++ [r.2] else r.1

/-- Monitoring step of the `computeSubscribe` accumulation: a task whose
key is new (absent from `lastMonitoring`) records its pair with the
monitoring depth under its exchange:market group, overwriting any depth
recorded for that pair so far. -/
def addMonitoringPairs (lastMonitoring : List (String × MonitoringTask))
    (acc : List (String × List (String × Nat))) (entry : String × MonitoringTask) :
    List (String × List (String × Nat)) :=
  if (lookupStr lastMonitoring entry.1).isSome then acc
  else
    let t := entry.2
    let emKey := emKeyOf t.exchangeID t.marketType
    let acc1 := if (lookupStr acc emKey).isSome then acc else goMapInsert acc emKey []
    let inner := (lookupStr acc1 emKey).getD []
    goMapInsert acc1 emKey (goMapInsert inner t.tradePair t.orderbookDepth)

/-- Trading step of the `computeSubscribe` accumulation: a task whose key
is new (absent from `lastTrading`) records its pair with default depth 50
only when no pair entry exists yet in its group (a monitoring depth wins
regardless of size). -/
def addTradingPairs (lastTrading : List (String × TradingTask))
    (acc : List (String × List (String × Nat))) (entry : String × TradingTask) :
    List (String × List (String × Nat)) :=
  if (lookupStr lastTrading entry.1).isSome then acc
  else
    let t := entry.2
    let emKey := emKeyOf t.exchangeID t.marketType
    let acc1 := if (lookupStr acc emKey).isSome then acc else goMapInsert acc emKey []
    let inner := (lookupStr acc1 emKey).getD []
    if (lookupStr inner t.tradePair).isSome then acc1
    else goMapInsert acc1 emKey (goMapInsert inner t.tradePair 50)

/-- The `pairsByExchangeMarket` map of `computeSubscribe`, for given
iteration sequences of `newMonitoring` and `newTrading`. -/
def buildSubscribePairs (lastMonitoring : List (String × MonitoringTask))
    (lastTrading : List (String × TradingTask))
    (monOrder : List (String × MonitoringTask))
    (trdOrder : List (String × TradingTask)) :
    List (String × List (String × Nat)) :=
  trdOrder.foldl (addTradingPairs lastTrading)
    (monOrder.foldl (addMonitoringPairs lastMonitoring) [])

/-- Depth selection in the conversion loop of `computeSubscribe`: the
first nonzero depth encountered (the running value starts at the zero
value and is only replaced while it is 0). -/
def firstDepth (ds : List Nat) : Nat :=
  ds.foldl (fun depth d => if depth = 0 then d else depth) 0

/-- Conversion loop of `computeSubscribe`: one `Subscription` per
nonempty group whose key splits into exactly two parts, with the pair
names in iteration order and `firstDepth` of the depths. -/
def subsOfIter : List (String × List (String × Nat)) → List Subscription
  | [] => []
  | (emKey, prs) :: rest =>
      (if 0 < prs.length then
        match splitExchangeMarket emKey with
        | [exchangeID, marketType] =>
            [⟨exchangeID, marketType, prs.map Prod.fst, firstDepth (prs.map Prod.snd)⟩]
        | _ => []
      else []) ++ subsOfIter rest

/-- Monitoring step of the `computeUnsubscribe` accumulation: a previous
task whose key is gone from `newMonitoring` records its pair. -/
def addUnsubMonitoring (newMonitoring : List (String × MonitoringTask))
    (acc : List (String × List (String × Bool))) (entry : String × MonitoringTask) :
    List (String × List (String × Bool)) :=
  if (lookupStr newMonitoring entry.1).isSome then acc
  else
    let t := entry.2
    let emKey := emKeyOf t.exchangeID t.marketType
    let acc1 := if (lookupStr acc emKey).isSome then acc else goMapInsert acc emKey []
    let inner := (lookupStr acc1 emKey).getD []
    goMapInsert acc1 emKey (goMapInsert inner t.tradePair true)

/-- Trading step of the `computeUnsubscribe` accumulation. -/
def addUnsubTrading (newTrading : List (String × TradingTask))
    (acc : List (String × List (String × Bool))) (entry : String × TradingTask) :
    List (String × List (String × Bool)) :=
  if (lookupStr newTrading entry.1).isSome then acc
  else
    let t := entry.2
    let emKey := emKeyOf t.exchangeID t.marketType
    let acc1 := if (lookupStr acc emKey).isSome then acc else goMapInsert acc emKey []
    let inner := (lookupStr acc1 emKey).getD []
    goMapInsert acc1 emKey (goMapInsert inner t.tradePair true)

/-- The `pairsByExchangeMarket` map of `computeUnsubscribe`, for given
iteration sequences of the previous maps. -/
def buildUnsubscribePairs (newMonitoring : List (String × MonitoringTask))
    (newTrading : List (String × TradingTask))
    (lastMonOrder : List (String × MonitoringTask))
    (lastTrdOrder : List (String × TradingTask)) :
    List (String × List (String × Bool)) :=
  lastTrdOrder.foldl (addUnsubTrading newTrading)
    (lastMonOrder.foldl (addUnsubMonitoring newMonitoring) [])

/-- Conversion loop of `computeUnsubscribe`: no depth is set, so the
`Subscription` carries the zero value 0. -/
def unsubsOfIter : List (String × List (String × Bool)) → List Subscription
  | [] => []
  | (emKey, prs) :: rest =>
      (if 0 < prs.length then
        match splitExchangeMarket emKey with
        | [exchangeID, marketType] =>
            [⟨exchangeID, marketType, prs.map Prod.fst, 0⟩]
        | _ => []
      else []) ++ unsubsOfIter rest

/-- Iteration sequence of a Go map whose values are themselves maps: the
outer entries in some order, each inner map enumerated in some order. -/
def MapIter {β : Type} (m o : List (String × List β)) : Prop :=
  ∃ l, List.Perm m l ∧
    List.Forall₂ (fun a b => a.1 = b.1 ∧ List.Perm a.2 b.2) l o

/-- A possible execution of `SubscriptionManager.Merge` under some choice
of Go map iteration orders: the result is the diff produced from those
orders together with the replaced state. -/
def MergeRun (sm : SubscriptionManagerState) (newTasks : TasksData)
    (result : SubscriptionDiff × SubscriptionManagerState) : Prop :=
  ∃ monOrder trdOrder lastMonOrder lastTrdOrder subOut unsubOut,
    List.Perm monOrder (buildMonitoringMap newTasks.monitoringTasks) ∧
    List.Perm trdOrder (buildTradingMap newTasks.tradingTasks) ∧
    List.Perm lastMonOrder sm.lastMonitoring ∧
    List.Perm lastTrdOrder sm.lastTrading ∧
    MapIter (buildSubscribePairs sm.lastMonitoring sm.lastTrading monOrder trdOrder)
      subOut ∧
    MapIter (buildUnsubscribePairs (buildMonitoringMap newTasks.monitoringTasks)
      (buildTradingMap newTasks.tradingTasks) lastMonOrder lastTrdOrder) unsubOut ∧
    result = (⟨subsOfIter subOut, unsubsOfIter unsubOut⟩,
      ⟨buildMonitoringMap newTasks.monitoringTasks,
        buildTradingMap newTasks.tradingTasks⟩)

/-! ## Supporting lemmas: association lists and iteration orders -/

theorem lookupStr_isSome_of_mem {α : Type} {m : List (String × α)} {k : String}
    {v : α} (h : (k, v) ∈ m) : (lookupStr m k).isSome = true := by
  induction m with
  | nil => cases h
  | cons e rest ih =>
      obtain ⟨k2, v2⟩ := e
      by_cases hk : k2 = k
      · simp [lookupStr, hk]
      · simp only [lookupStr, hk, if_false]
        rcases List.mem_cons.mp h with he | he
        · exact absurd (congrArg Prod.fst he).symm hk
        · exact ih he

theorem forall2_iter_refl {β : Type} (m : List (String × List β)) :
    List.Forall₂ (fun a b => a.1 = b.1 ∧ List.Perm a.2 b.2) m m := by
  induction m with
  | nil => exact List.Forall₂.nil
  | cons e rest ih => exact List.Forall₂.cons ⟨rfl, List.Perm.refl _⟩ ih

theorem mapIter_refl {β : Type} (m : List (String × List β)) : MapIter m m :=
  ⟨m, List.Perm.refl m, forall2_iter_refl m⟩

theorem mapIter_nil {β : Type} {o : List (String × List β)}
    (h : MapIter [] o) : o = [] := by
  obtain ⟨l, hp, hf⟩ := h
  have hl : l = [] := hp.symm.eq_nil
  subst hl
  cases hf
  rfl

theorem mapIter_singleton {β : Type} {k : String} {vs : List β}
    {o : List (String × List β)} (h : MapIter [(k, vs)] o) :
    ∃ prs, o = [(k, prs)] ∧ List.Perm vs prs := by
  obtain ⟨l, hp, hf⟩ := h
  have hl : l = [(k, vs)] := (List.singleton_perm.mp hp).symm
  subst hl
  cases hf with
  | cons hab htail =>
      cases htail
      rename_i b
      obtain ⟨b1, b2⟩ := b
      have hb1 : k = b1 := hab.1
      exact ⟨b2, by rw [hb1], hab.2⟩

/-! ## Claim theorems: subscription diff idempotence (C4) -/

theorem addMonitoringPairs_skip {lastMonitoring : List (String × MonitoringTask)}
    {acc : List (String × List (String × Nat))} {entry : String × MonitoringTask}
    (h : (lookupStr lastMonitoring entry.1).isSome = true) :
    addMonitoringPairs lastMonitoring acc entry = acc := by
  simp [addMonitoringPairs, h]

theorem addTradingPairs_skip {lastTrading : List (String × TradingTask)}
    {acc : List (String × List (String × Nat))} {entry : String × TradingTask}
    (h : (lookupStr lastTrading entry.1).isSome = true) :
    addTradingPairs lastTrading acc entry = acc := by
  simp [addTradingPairs, h]

theorem addUnsubMonitoring_skip {newMonitoring : List (String × MonitoringTask)}
    {acc : List (String × List (String × Bool))} {entry : String × MonitoringTask}
    (h : (lookupStr newMonitoring entry.1).isSome = true) :
    addUnsubMonitoring newMonitoring acc entry = acc := by
  simp [addUnsubMonitoring, h]

theorem addUnsubTrading_skip {newTrading : List (String × TradingTask)}
    {acc : List (String × List (String × Bool))} {entry : String × TradingTask}
    (h : (lookupStr newTrading entry.1).isSome = true) :
    addUnsubTrading newTrading acc entry = acc := by
  simp [addUnsubTrading, h]

theorem foldl_addMonitoringPairs_id {lastMonitoring : List (String × MonitoringTask)}
    {monOrder : List (String × MonitoringTask)}
    (acc : List (String × List (String × Nat)))
    (h : ∀ e ∈ monOrder, (lookupStr lastMonitoring e.1).isSome = true) :
    monOrder.foldl (addMonitoringPairs lastMonitoring) acc = acc := by
  induction monOrder generalizing acc with
  | nil => rfl
  | cons e rest ih =>
      rw [List.foldl_cons, addMonitoringPairs_skip (h e (List.mem_cons_self e rest))]
      exact ih acc (fun x hx => h x (List.mem_cons_of_mem e hx))

theorem foldl_addTradingPairs_id {lastTrading : List (String × TradingTask)}
    {trdOrder : List (String × TradingTask)}
    (acc : List (String × List (String × Nat)))
    (h : ∀ e ∈ trdOrder, (lookupStr lastTrading e.1).isSome = true) :
    trdOrder.foldl (addTradingPairs lastTrading) acc = acc := by
  induction trdOrder generalizing acc with
  | nil => rfl
  | cons e rest ih =>
      rw [List.foldl_cons, addTradingPairs_skip (h e (List.mem_cons_self e rest))]
      exact ih acc (fun x hx => h x (List.mem_cons_of_mem e hx))

theorem foldl_addUnsubMonitoring_id {newMonitoring : List (String × MonitoringTask)}
    {lastMonOrder : List (String × MonitoringTask)}
    (acc : List (String × List (String × Bool)))
    (h : ∀ e ∈ lastMonOrder, (lookupStr newMonitoring e.1).isSome = true) :
    lastMonOrder.foldl (addUnsubMonitoring newMonitoring) acc = acc := by
  induction lastMonOrder generalizing acc with
  | nil => rfl
  | cons e rest ih =>
      rw [List.foldl_cons, addUnsubMonitoring_skip (h e (List.mem_cons_self e rest))]
      exact ih acc (fun x hx => h x (List.mem_cons_of_mem e hx))

theorem foldl_addUnsubTrading_id {newTrading : List (String × TradingTask)}
    {lastTrdOrder : List (String × TradingTask)}
    (acc : List (String × List (String × Bool)))
    (h : ∀ e ∈ lastTrdOrder, (lookupStr newTrading e.1).isSome = true) :
    lastTrdOrder.foldl (addUnsubTrading newTrading) acc = acc := by
  induction lastTrdOrder generalizing acc with
  | nil => rfl
  | cons e rest ih =>
      rw [List.foldl_cons, addUnsubTrading_skip (h e (List.mem_cons_self e rest))]
      exact ih acc (fun x hx => h x (List.mem_cons_of_mem e hx))

/-- C4: merging a snapshot S when the previously merged snapshot was an
identical S yields an empty diff, for every Go map iteration order: no
subscriptions to add and none to remove. -/
theorem merge_idempotent (S : TasksData)
    (result : SubscriptionDiff × SubscriptionManagerState)
    (h : MergeRun
      ⟨buildMonitoringMap S.monitoringTasks, buildTradingMap S.tradingTasks⟩
      S result) :
    result.1.toSubscribe = [] ∧ result.1.unsubscribe = [] := by
  obtain ⟨monO, trdO, lastMonO, lastTrdO, subOut, unsubOut,
    hm, ht, hlm, hlt, hsub, hunsub, hres⟩ := h
  have hsubNil : buildSubscribePairs (buildMonitoringMap S.monitoringTasks)
      (buildTradingMap S.tradingTasks) monO trdO = [] := by
    unfold buildSubscribePairs
    rw [foldl_addMonitoringPairs_id []
      (fun e he => lookupStr_isSome_of_mem (hm.subset he))]
    exact foldl_addTradingPairs_id []
      (fun e he => lookupStr_isSome_of_mem (ht.subset he))
  have hunsubNil : buildUnsubscribePairs (buildMonitoringMap S.monitoringTasks)
      (buildTradingMap S.tradingTasks) lastMonO lastTrdO = [] := by
    unfold buildUnsubscribePairs
    rw [foldl_addUnsubMonitoring_id []
      (fun e he => lookupStr_isSome_of_mem (hlm.subset he))]
    exact foldl_addUnsubTrading_id []
      (fun e he => lookupStr_isSome_of_mem (hlt.subset he))
  rw [hsubNil] at hsub
  rw [hunsubNil] at hunsub
  rw [mapIter_nil hsub] at hres
  rw [mapIter_nil hunsub] at hres
  rw [hres]
  exact ⟨rfl, rfl⟩

/-- Witness for the C4 theorem: remerging a snapshot with one monitoring
task and one trading task over the state it previously produced yields the
empty diff. -/
theorem merge_idempotent_witness :
    MergeRun
      ⟨buildMonitoringMap [⟨1, 1, "binance", "Binance", "spot", 7, "BTC/USDT",
          20, 100, 5, 1000, 5⟩],
        buildTradingMap [⟨2, 1, 6, "binance", "Binance", "spot", 7, "ETH/USDT",
          "grid", "params", 3⟩]⟩
      ⟨0, [⟨1, 1, "binance", "Binance", "spot", 7, "BTC/USDT", 20, 100, 5, 1000, 5⟩],
        [⟨2, 1, 6, "binance", "Binance", "spot", 7, "ETH/USDT", "grid", "params", 3⟩]⟩
      (⟨[], []⟩,
        ⟨buildMonitoringMap [⟨1, 1, "binance", "Binance", "spot", 7, "BTC/USDT",
            20, 100, 5, 1000, 5⟩],
          buildTradingMap [⟨2, 1, 6, "binance", "Binance", "spot", 7, "ETH/USDT",
            "grid", "params", 3⟩]⟩) ∧
    (⟨[], []⟩ : SubscriptionDiff).toSubscribe = [] ∧
    (⟨[], []⟩ : SubscriptionDiff).unsubscribe = [] := by
  have hrun : MergeRun
      ⟨buildMonitoringMap [⟨1, 1, "binance", "Binance", "spot", 7, "BTC/USDT",
          20, 100, 5, 1000, 5⟩],
        buildTradingMap [⟨2, 1, 6, "binance", "Binance", "spot", 7, "ETH/USDT",
          "grid", "params", 3⟩]⟩
      ⟨0, [⟨1, 1, "binance", "Binance", "spot", 7, "BTC/USDT", 20, 100, 5, 1000, 5⟩],
        [⟨2, 1, 6, "binance", "Binance", "spot", 7, "ETH/USDT", "grid", "params", 3⟩]⟩
      (⟨[], []⟩,
        ⟨buildMonitoringMap [⟨1, 1, "binance", "Binance", "spot", 7, "BTC/USDT",
            20, 100, 5, 1000, 5⟩],
          buildTradingMap [⟨2, 1, 6, "binance", "Binance", "spot", 7, "ETH/USDT",
            "grid", "params", 3⟩]⟩) := by
    refine ⟨_, _, _, _, [], [], List.Perm.refl _, List.Perm.refl _,
      List.Perm.refl _, List.Perm.refl _, ?_, ?_, ?_⟩
    · exact ⟨[], by decide, List.Forall₂.nil⟩
    · exact ⟨[], by decide, List.Forall₂.nil⟩
    · decide
  exact ⟨hrun, (merge_idempotent _ _ hrun).1, (merge_idempotent _ _ hrun).2⟩

/-! ## Claim theorems: subscribe depth selection (C3) -/

/-- C3 counterexample: a pair newly required by both a monitoring task at
depth 20 and a trading task on the same venue and market gets a subscribe
entry at depth 20 — the monitoring depth — and not at
`max 20 50 = 50` as the claim demands with the trade default of 50. -/
theorem subscribe_depth_not_max_cex :
    subsOfIter (buildSubscribePairs [] []
        [(GetMonitoringTaskKey
            ⟨1, 1, "binance", "Binance", "spot", 7, "BTC/USDT", 20, 100, 5, 1000, 5⟩,
          ⟨1, 1, "binance", "Binance", "spot", 7, "BTC/USDT", 20, 100, 5, 1000, 5⟩)]
        [(GetTradingTaskKey
            ⟨2, 1, 6, "binance", "Binance", "spot", 7, "BTC/USDT", "arb", "params", 3⟩,
          ⟨2, 1, 6, "binance", "Binance", "spot", 7, "BTC/USDT", "arb", "params", 3⟩)])
      = [⟨"binance", "spot", ["BTC/USDT"], 20⟩]
    ∧ (20 : Nat) ≠ Nat.max 20 50 := by
  decide

/-- C3 amended: when a pair newly enters the desired set and is required
by both a monitoring task and a trading task on the same venue and market,
the subscribe entry uses the monitoring depth unconditionally (whether or
not it is larger than the trade default 50); the default 50 would apply
only to a pair no monitoring task covers. Stated for every Go map
iteration order over a previously empty state. -/
theorem subscribe_depth_monitor_wins
    (mt : MonitoringTask) (tt : TradingTask)
    (hex : tt.exchangeID = mt.exchangeID) (hmk : tt.marketType = mt.marketType)
    (hp : tt.tradePair = mt.tradePair)
    (hsplit : splitExchangeMarket (emKeyOf mt.exchangeID mt.marketType)
      = [mt.exchangeID, mt.marketType])
    (monOrder : List (String × MonitoringTask))
    (trdOrder : List (String × TradingTask))
    (subOut : List (String × List (String × Nat)))
    (hmon : List.Perm monOrder [(GetMonitoringTaskKey mt, mt)])
    (htrd : List.Perm trdOrder [(GetTradingTaskKey tt, tt)])
    (hout : MapIter (buildSubscribePairs [] [] monOrder trdOrder) subOut) :
    subsOfIter subOut
      = [⟨mt.exchangeID, mt.marketType, [mt.tradePair], mt.orderbookDepth⟩] := by
  have hm := List.perm_singleton.mp hmon
  have ht := List.perm_singleton.mp htrd
  subst hm
  subst ht
  have hbuild : buildSubscribePairs [] []
      [(GetMonitoringTaskKey mt, mt)] [(GetTradingTaskKey tt, tt)]
      = [(emKeyOf mt.exchangeID mt.marketType,
          [(mt.tradePair, mt.orderbookDepth)])] := by
    simp [buildSubscribePairs, addMonitoringPairs, addTradingPairs,
      lookupStr, goMapInsert, hex, hmk, hp]
  rw [hbuild] at hout
  obtain ⟨prs, ho, hperm⟩ := mapIter_singleton hout
  have hprs : [(mt.tradePair, mt.orderbookDepth)] = prs :=
    List.singleton_perm.mp hperm
  subst ho
  rw [← hprs]
  simp [subsOfIter, hsplit, firstDepth]

/-- Witness for the C3 theorem: monitoring depth 20 plus a trading task on
the same new pair subscribes at depth 20, under the canonical iteration
order. -/
theorem subscribe_depth_monitor_wins_witness :
    (splitExchangeMarket (emKeyOf "binance" "spot") = ["binance", "spot"]) ∧
    subsOfIter (buildSubscribePairs [] []
        [(GetMonitoringTaskKey
            ⟨1, 1, "binance", "Binance", "spot", 7, "ETH/USDT", 20, 100, 5, 1000, 5⟩,
          ⟨1, 1, "binance", "Binance", "spot", 7, "ETH/USDT", 20, 100, 5, 1000, 5⟩)]
        [(GetTradingTaskKey
            ⟨2, 1, 6, "binance", "Binance", "spot", 7, "ETH/USDT", "arb", "params", 3⟩,
          ⟨2, 1, 6, "binance", "Binance", "spot", 7, "ETH/USDT", "arb", "params", 3⟩)])
      = [⟨"binance", "spot", ["ETH/USDT"], 20⟩] :=
  ⟨by decide,
    subscribe_depth_monitor_wins
      ⟨1, 1, "binance", "Binance", "spot", 7, "ETH/USDT", 20, 100, 5, 1000, 5⟩
      ⟨2, 1, 6, "binance", "Binance", "spot", 7, "ETH/USDT", "arb", "params", 3⟩
      rfl rfl rfl (by decide) _ _ _ (List.Perm.refl _) (List.Perm.refl _)
      (mapIter_refl _)⟩

/-! ## Supporting lemmas: determinism analysis of the subscribe diff -/

theorem lookupStr_goMapInsert {α : Type} (m : List (String × α)) (k k2 : String)
    (v : α) :
    lookupStr (goMapInsert m k v) k2 = if k = k2 then some v else lookupStr m k2 := by
  induction m with
  | nil => simp [goMapInsert, lookupStr]
  | cons e rest ih =>
      obtain ⟨ke, ve⟩ := e
      by_cases hk : ke = k
      · subst hk
        by_cases h2 : ke = k2 <;> simp [goMapInsert, lookupStr, h2]
      · by_cases h2 : ke = k2
        · subst h2
          have h3 : ¬ k = ke := fun h => hk h.symm
          simp [goMapInsert, hk, lookupStr, h3]
        · by_cases h3 : k = k2
          · subst h3
            simp [goMapInsert, hk, lookupStr, h2, ih]
          · simp [goMapInsert, hk, lookupStr, h2, h3, ih]

/-- Presence of pair `p` in the group keyed `em` of a nested pairs map. -/
def pairIn {β : Type} (m : List (String × List (String × β))) (em p : String) : Prop :=
  ∃ inner, lookupStr m em = some inner ∧ (lookupStr inner p).isSome = true

/-- The ensure-group step `if _, ok := m[em]; !ok { m[em] = make(...) }`
changes no pair membership. -/
theorem pairIn_ensure {β : Type} (acc : List (String × List (String × β)))
    (emT em p : String) :
    pairIn (if (lookupStr acc emT).isSome then acc else goMapInsert acc emT [])
      em p ↔ pairIn acc em p := by
  by_cases hsome : (lookupStr acc emT).isSome = true
  · simp [hsome]
  · have hnone : lookupStr acc emT = none := by
      cases h : lookupStr acc emT
      · rfl
      · rw [h] at hsome; simp at hsome
    have hif : (if (lookupStr acc emT).isSome then acc else goMapInsert acc emT [])
        = goMapInsert acc emT [] := by simp [hnone]
    rw [hif]
    unfold pairIn
    rw [lookupStr_goMapInsert]
    by_cases hem : emT = em
    · subst hem
      simp [hnone, lookupStr]
    · simp [hem]

/-- Lookup after the ensure-group step always succeeds with the previous
group or a fresh empty one. -/
theorem lookupStr_ensure {β : Type} (acc : List (String × List (String × β)))
    (emT : String) :
    lookupStr (if (lookupStr acc emT).isSome then acc else goMapInsert acc emT [])
      emT = some ((lookupStr acc emT).getD []) := by
  cases h : lookupStr acc emT with
  | none => simp [h, lookupStr_goMapInsert]
  | some inner => simp [h]

/-- Inserting pair `pr` into the (ensured) group `emT` adds exactly the
membership fact (emT, pr). -/
theorem pairIn_insert_inner {β : Type} (acc : List (String × List (String × β)))
    (emT pr : String) (d : β) (inner : List (String × β))
    (hinner : lookupStr acc emT = some inner) (em p : String) :
    pairIn (goMapInsert acc emT (goMapInsert inner pr d)) em p ↔
      ((em = emT ∧ p = pr) ∨ pairIn acc em p) := by
  unfold pairIn
  rw [lookupStr_goMapInsert]
  by_cases hem : emT = em
  · subst hem
    by_cases hpr : pr = p
    · subst hpr
      simp [hinner, lookupStr_goMapInsert]
    · simp [hinner, lookupStr_goMapInsert, hpr, Ne.symm hpr]
  · simp [hem, Ne.symm hem]

/-- Effect on pair membership of one unconditional record step (ensure
the group, then assign the pair): exactly the fact (emT, pr) is added. -/
theorem pairIn_add_step {β : Type} (acc : List (String × List (String × β)))
    (emT pr : String) (d : β) (em p : String) :
    pairIn (goMapInsert
        (if (lookupStr acc emT).isSome then acc else goMapInsert acc emT [])
        emT
        (goMapInsert
          ((lookupStr (if (lookupStr acc emT).isSome then acc
              else goMapInsert acc emT []) emT).getD [])
          pr d)) em p ↔ ((em = emT ∧ p = pr) ∨ pairIn acc em p) := by
  rw [lookupStr_ensure, Option.getD_some,
    pairIn_insert_inner _ emT pr d _ (lookupStr_ensure acc emT), pairIn_ensure]

/-- Effect on pair membership of one guarded record step (ensure the
group, assign the pair only when absent): the fact (emT, pr) is present
afterwards either way, and nothing else changes. -/
theorem pairIn_addTrading_step {β : Type} (acc : List (String × List (String × β)))
    (emT pr : String) (d : β) (em p : String) :
    pairIn (if (lookupStr
          ((lookupStr (if (lookupStr acc emT).isSome then acc
              else goMapInsert acc emT []) emT).getD []) pr).isSome then
        (if (lookupStr acc emT).isSome then acc else goMapInsert acc emT [])
      else goMapInsert
        (if (lookupStr acc emT).isSome then acc else goMapInsert acc emT [])
        emT
        (goMapInsert
          ((lookupStr (if (lookupStr acc emT).isSome then acc
              else goMapInsert acc emT []) emT).getD [])
          pr d)) em p ↔ ((em = emT ∧ p = pr) ∨ pairIn acc em p) := by
  rw [lookupStr_ensure, Option.getD_some]
  by_cases hpr : (lookupStr ((lookupStr acc emT).getD []) pr).isSome = true
  · rw [if_pos hpr, pairIn_ensure]
    constructor
    · exact Or.inr
    · rintro (⟨hem, hp2⟩ | hacc)
      · subst hem
        subst hp2
        cases h2 : lookupStr acc em with
        | some inner =>
            refine ⟨inner, h2, ?_⟩
            rw [h2, Option.getD_some] at hpr
            exact hpr
        | none =>
            rw [h2] at hpr
            simp [lookupStr] at hpr
      · exact hacc
  · rw [if_neg hpr,
      pairIn_insert_inner _ emT pr d _ (lookupStr_ensure acc emT), pairIn_ensure]

theorem pairIn_addMonitoringPairs (lastMonitoring : List (String × MonitoringTask))
    (acc : List (String × List (String × Nat))) (e : String × MonitoringTask)
    (em p : String) :
    pairIn (addMonitoringPairs lastMonitoring acc e) em p ↔
      ((lookupStr lastMonitoring e.1 = none ∧
          em = emKeyOf e.2.exchangeID e.2.marketType ∧ p = e.2.tradePair) ∨
        pairIn acc em p) := by
  cases hg : lookupStr lastMonitoring e.1 with
  | some t0 => simp [addMonitoringPairs, hg]
  | none =>
      have hres : addMonitoringPairs lastMonitoring acc e
          = goMapInsert
              (if (lookupStr acc (emKeyOf e.2.exchangeID e.2.marketType)).isSome
                then acc
                else goMapInsert acc (emKeyOf e.2.exchangeID e.2.marketType) [])
              (emKeyOf e.2.exchangeID e.2.marketType)
              (goMapInsert
                ((lookupStr (if (lookupStr acc
                      (emKeyOf e.2.exchangeID e.2.marketType)).isSome then acc
                    else goMapInsert acc (emKeyOf e.2.exchangeID e.2.marketType) [])
                    (emKeyOf e.2.exchangeID e.2.marketType)).getD [])
                e.2.tradePair e.2.orderbookDepth) := by
        simp [addMonitoringPairs, hg]
      rw [hres, pairIn_add_step]
      simp

theorem pairIn_addTradingPairs (lastTrading : List (String × TradingTask))
    (acc : List (String × List (String × Nat))) (e : String × TradingTask)
    (em p : String) :
    pairIn (addTradingPairs lastTrading acc e) em p ↔
      ((lookupStr lastTrading e.1 = none ∧
          em = emKeyOf e.2.exchangeID e.2.marketType ∧ p = e.2.tradePair) ∨
        pairIn acc em p) := by
  cases hg : lookupStr lastTrading e.1 with
  | some t0 => simp [addTradingPairs, hg]
  | none =>
      have hres : addTradingPairs lastTrading acc e
          = (if (lookupStr
                ((lookupStr (if (lookupStr acc
                      (emKeyOf e.2.exchangeID e.2.marketType)).isSome then acc
                    else goMapInsert acc (emKeyOf e.2.exchangeID e.2.marketType) [])
                    (emKeyOf e.2.exchangeID e.2.marketType)).getD [])
                e.2.tradePair).isSome then
              (if (lookupStr acc (emKeyOf e.2.exchangeID e.2.marketType)).isSome
                then acc
                else goMapInsert acc (emKeyOf e.2.exchangeID e.2.marketType) [])
            else goMapInsert
              (if (lookupStr acc (emKeyOf e.2.exchangeID e.2.marketType)).isSome
                then acc
                else goMapInsert acc (emKeyOf e.2.exchangeID e.2.marketType) [])
              (emKeyOf e.2.exchangeID e.2.marketType)
              (goMapInsert
                ((lookupStr (if (lookupStr acc
                      (emKeyOf e.2.exchangeID e.2.marketType)).isSome then acc
                    else goMapInsert acc (emKeyOf e.2.exchangeID e.2.marketType) [])
                    (emKeyOf e.2.exchangeID e.2.marketType)).getD [])
                e.2.tradePair 50)) := by
        simp [addTradingPairs, hg]
      rw [hres, pairIn_addTrading_step]
      simp

theorem pairIn_foldl_addMonitoringPairs
    (lastMonitoring : List (String × MonitoringTask))
    (monOrder : List (String × MonitoringTask))
    (acc : List (String × List (String × Nat))) (em p : String) :
    pairIn (monOrder.foldl (addMonitoringPairs lastMonitoring) acc) em p ↔
      ((∃ e ∈ monOrder, lookupStr lastMonitoring e.1 = none ∧
          em = emKeyOf e.2.exchangeID e.2.marketType ∧ p = e.2.tradePair) ∨
        pairIn acc em p) := by
  induction monOrder generalizing acc with
  | nil => simp
  | cons e rest ih =>
      rw [List.foldl_cons, ih, pairIn_addMonitoringPairs]
      simp only [List.mem_cons]
      constructor
      · rintro (⟨x, hx, hprop⟩ | (he | hacc))
        · exact Or.inl ⟨x, Or.inr hx, hprop⟩
        · exact Or.inl ⟨e, Or.inl rfl, he⟩
        · exact Or.inr hacc
      · rintro (⟨x, hx | hx, hprop⟩ | hacc)
        · exact Or.inr (Or.inl (hx ▸ hprop))
        · exact Or.inl ⟨x, hx, hprop⟩
        · exact Or.inr (Or.inr hacc)

theorem pairIn_foldl_addTradingPairs
    (lastTrading : List (String × TradingTask))
    (trdOrder : List (String × TradingTask))
    (acc : List (String × List (String × Nat))) (em p : String) :
    pairIn (trdOrder.foldl (addTradingPairs lastTrading) acc) em p ↔
      ((∃ e ∈ trdOrder, lookupStr lastTrading e.1 = none ∧
          em = emKeyOf e.2.exchangeID e.2.marketType ∧ p = e.2.tradePair) ∨
        pairIn acc em p) := by
  induction trdOrder generalizing acc with
  | nil => simp
  | cons e rest ih =>
      rw [List.foldl_cons, ih, pairIn_addTradingPairs]
      simp only [List.mem_cons]
      constructor
      · rintro (⟨x, hx, hprop⟩ | (he | hacc))
        · exact Or.inl ⟨x, Or.inr hx, hprop⟩
        · exact Or.inl ⟨e, Or.inl rfl, he⟩
        · exact Or.inr hacc
      · rintro (⟨x, hx | hx, hprop⟩ | hacc)
        · exact Or.inr (Or.inl (hx ▸ hprop))
        · exact Or.inl ⟨x, hx, hprop⟩
        · exact Or.inr (Or.inr hacc)

/-- Order-independent characterization of pair membership in the
`computeSubscribe` accumulation. -/
theorem pairIn_buildSubscribePairs
    (lastMonitoring : List (String × MonitoringTask))
    (lastTrading : List (String × TradingTask))
    (monOrder : List (String × MonitoringTask))
    (trdOrder : List (String × TradingTask)) (em p : String) :
    pairIn (buildSubscribePairs lastMonitoring lastTrading monOrder trdOrder) em p ↔
      ((∃ e ∈ monOrder, lookupStr lastMonitoring e.1 = none ∧
          em = emKeyOf e.2.exchangeID e.2.marketType ∧ p = e.2.tradePair) ∨
        (∃ e ∈ trdOrder, lookupStr lastTrading e.1 = none ∧
          em = emKeyOf e.2.exchangeID e.2.marketType ∧ p = e.2.tradePair)) := by
  unfold buildSubscribePairs
  rw [pairIn_foldl_addTradingPairs, pairIn_foldl_addMonitoringPairs]
  have hnil : ¬ pairIn ([] : List (String × List (String × Nat))) em p := by
    rintro ⟨inner, hi, _⟩
    cases hi
  constructor
  · rintro (ht | (hm | habs))
    · exact Or.inr ht
    · exact Or.inl hm
    · exact absurd habs hnil
  · rintro (hm | ht)
    · exact Or.inr (Or.inl hm)
    · exact Or.inl ht

/-- Keys of a Go map are pairwise distinct. -/
def keysNodup {α : Type} (m : List (String × α)) : Prop :=
  (m.map Prod.fst).Nodup

theorem mem_keys_goMapInsert {α : Type} {m : List (String × α)} {k x : String}
    {v : α} :
    x ∈ (goMapInsert m k v).map Prod.fst ↔ x = k ∨ x ∈ m.map Prod.fst := by
  induction m with
  | nil => simp [goMapInsert]
  | cons e rest ih =>
      obtain ⟨ke, ve⟩ := e
      by_cases hk : ke = k
      · subst hk
        simp [goMapInsert]
      · simp [goMapInsert, hk, ih]
        tauto

theorem keysNodup_goMapInsert {α : Type} {m : List (String × α)} {k : String}
    {v : α} (h : keysNodup m) : keysNodup (goMapInsert m k v) := by
  induction m with
  | nil => simp [keysNodup, goMapInsert]
  | cons e rest ih =>
      obtain ⟨ke, ve⟩ := e
      rw [keysNodup, List.map_cons, List.nodup_cons] at h
      by_cases hk : ke = k
      · subst hk
        have hgo : goMapInsert ((ke, ve) :: rest) ke v = (ke, v) :: rest := by
          simp [goMapInsert]
        rw [keysNodup, hgo, List.map_cons, List.nodup_cons]
        exact h
      · have hgo : goMapInsert ((ke, ve) :: rest) k v
            = (ke, ve) :: goMapInsert rest k v := by
          simp [goMapInsert, hk]
        rw [keysNodup, hgo, List.map_cons, List.nodup_cons]
        refine ⟨?_, ih h.2⟩
        rw [mem_keys_goMapInsert]
        rintro (he | he)
        · exact hk he
        · exact h.1 he

theorem keysNodup_ensure {β : Type} {acc : List (String × List (String × β))}
    {emT : String} (h : keysNodup acc) :
    keysNodup (if (lookupStr acc emT).isSome then acc else goMapInsert acc emT []) := by
  by_cases hs : (lookupStr acc emT).isSome = true
  · simpa [hs] using h
  · simp only [hs, if_false]
    exact keysNodup_goMapInsert h

theorem keysNodup_addMonitoringPairs
    {lastMonitoring : List (String × MonitoringTask)}
    {acc : List (String × List (String × Nat))} {e : String × MonitoringTask}
    (h : keysNodup acc) : keysNodup (addMonitoringPairs lastMonitoring acc e) := by
  unfold addMonitoringPairs
  by_cases hg : (lookupStr lastMonitoring e.1).isSome = true
  · simpa [hg] using h
  · simp only [hg, if_false]
    exact keysNodup_goMapInsert (keysNodup_ensure h)

theorem keysNodup_addTradingPairs
    {lastTrading : List (String × TradingTask)}
    {acc : List (String × List (String × Nat))} {e : String × TradingTask}
    (h : keysNodup acc) : keysNodup (addTradingPairs lastTrading acc e) := by
  unfold addTradingPairs
  by_cases hg : (lookupStr lastTrading e.1).isSome = true
  · simpa [hg] using h
  · simp only [hg, if_false]
    by_cases hpr : (lookupStr ((lookupStr (if (lookupStr acc
          (emKeyOf e.2.exchangeID e.2.marketType)).isSome then acc
        else goMapInsert acc (emKeyOf e.2.exchangeID e.2.marketType) [])
        (emKeyOf e.2.exchangeID e.2.marketType)).getD [])
        e.2.tradePair).isSome = true
    · simpa [hpr] using keysNodup_ensure h
    · simp only [hpr, if_false]
      exact keysNodup_goMapInsert (keysNodup_ensure h)

theorem keysNodup_buildSubscribePairs
    (lastMonitoring : List (String × MonitoringTask))
    (lastTrading : List (String × TradingTask))
    (monOrder : List (String × MonitoringTask))
    (trdOrder : List (String × TradingTask)) :
    keysNodup (buildSubscribePairs lastMonitoring lastTrading monOrder trdOrder) := by
  unfold buildSubscribePairs
  have hmon : ∀ (acc : List (String × List (String × Nat))), keysNodup acc →
      keysNodup (monOrder.foldl (addMonitoringPairs lastMonitoring) acc) := by
    induction monOrder with
    | nil => exact fun acc h => h
    | cons e rest ih =>
        intro acc h
        rw [List.foldl_cons]
        exact ih _ (keysNodup_addMonitoringPairs h)
  have htrd : ∀ (acc : List (String × List (String × Nat))), keysNodup acc →
      keysNodup (trdOrder.foldl (addTradingPairs lastTrading) acc) := by
    induction trdOrder with
    | nil => exact fun acc h => h
    | cons e rest ih =>
        intro acc h
        rw [List.foldl_cons]
        exact ih _ (keysNodup_addTradingPairs h)
  exact htrd _ (hmon _ (by simp [keysNodup]))

theorem lookupStr_eq_some_of_mem_nodup {α : Type} {m : List (String × α)}
    {k : String} {v : α} (hnd : keysNodup m) (h : (k, v) ∈ m) :
    lookupStr m k = some v := by
  induction m with
  | nil => cases h
  | cons e rest ih =>
      obtain ⟨ke, ve⟩ := e
      rw [keysNodup, List.map_cons, List.nodup_cons] at hnd
      rcases List.mem_cons.mp h with he | he
      · have h1 : k = ke := congrArg Prod.fst he
        have h2 : v = ve := congrArg Prod.snd he
        subst h1
        subst h2
        rw [lookupStr, if_pos rfl]
      · have hkmem : k ∈ rest.map Prod.fst := List.mem_map.mpr ⟨(k, v), he, rfl⟩
        have hke : ¬ ke = k := fun hh => hnd.1 (hh ▸ hkmem)
        rw [lookupStr, if_neg hke]
        exact ih hnd.2 he

theorem mem_of_lookupStr_eq_some {α : Type} {m : List (String × α)}
    {k : String} {v : α} (h : lookupStr m k = some v) : (k, v) ∈ m := by
  induction m with
  | nil => cases h
  | cons e rest ih =>
      obtain ⟨ke, ve⟩ := e
      by_cases hk : ke = k
      · subst hk
        rw [lookupStr, if_pos rfl, Option.some.injEq] at h
        subst h
        exact List.mem_cons_self _ _
      · rw [lookupStr, if_neg hk] at h
        exact List.mem_cons_of_mem _ (ih h)

theorem mem_map_fst_iff_lookupStr {α : Type} {inner : List (String × α)}
    {p : String} :
    p ∈ inner.map Prod.fst ↔ (lookupStr inner p).isSome = true := by
  induction inner with
  | nil => simp [lookupStr]
  | cons e rest ih =>
      obtain ⟨ke, ve⟩ := e
      by_cases hk : ke = p
      · subst hk
        simp [lookupStr]
      · simp [lookupStr, hk, ih, Ne.symm hk]

/-- A subscribe diff contains pair `p` for venue `ex` and market `mk`. -/
def subsHasPair (subs : List Subscription) (ex mk p : String) : Prop :=
  ∃ s ∈ subs, s.exchangeID = ex ∧ s.marketType = mk ∧ p ∈ s.pairs

theorem subsHasPair_append (a b : List Subscription) (ex mk p : String) :
    subsHasPair (a ++ b) ex mk p ↔
      subsHasPair a ex mk p ∨ subsHasPair b ex mk p := by
  unfold subsHasPair
  constructor
  · rintro ⟨s, hs, hp⟩
    rcases List.mem_append.mp hs with h | h
    · exact Or.inl ⟨s, h, hp⟩
    · exact Or.inr ⟨s, h, hp⟩
  · rintro (⟨s, hs, hp⟩ | ⟨s, hs, hp⟩)
    · exact ⟨s, List.mem_append.mpr (Or.inl hs), hp⟩
    · exact ⟨s, List.mem_append.mpr (Or.inr hs), hp⟩

theorem subsHasPair_group (em : String) (prs : List (String × Nat))
    (ex mk p : String) :
    subsHasPair (if 0 < prs.length then
        match splitExchangeMarket em with
        | [exchangeID, marketType] =>
            [⟨exchangeID, marketType, prs.map Prod.fst,
              firstDepth (prs.map Prod.snd)⟩]
        | _ => []
      else []) ex mk p
    ↔ (splitExchangeMarket em = [ex, mk] ∧ p ∈ prs.map Prod.fst) := by
  by_cases hlen : 0 < prs.length
  · rw [if_pos hlen]
    cases hsp : splitExchangeMarket em with
    | nil => simp [subsHasPair, hsp]
    | cons a tl =>
        cases tl with
        | nil => simp [subsHasPair, hsp]
        | cons a2 tl2 =>
            cases tl2 with
            | nil =>
                constructor
                · rintro ⟨s, hs, h1, h2, h3⟩
                  have hs2 : s = ⟨a, a2, prs.map Prod.fst,
                      firstDepth (prs.map Prod.snd)⟩ :=
                    List.mem_singleton.mp hs
                  subst hs2
                  have h1a : a = ex := h1
                  have h2a : a2 = mk := h2
                  subst h1a
                  subst h2a
                  exact ⟨rfl, h3⟩
                · rintro ⟨hlist, h3⟩
                  injection hlist with h1 hrest
                  injection hrest with h2 hnil2
                  subst h1
                  subst h2
                  exact ⟨⟨a, a2, prs.map Prod.fst, firstDepth (prs.map Prod.snd)⟩,
                    List.mem_singleton_self _, rfl, rfl, h3⟩
            | cons a3 tl3 => simp [subsHasPair, hsp]
  · rw [if_neg hlen]
    have hp : prs = [] :=
      List.eq_nil_of_length_eq_zero (Nat.eq_zero_of_not_pos hlen)
    subst hp
    simp [subsHasPair]

theorem subsHasPair_subsOfIter (o : List (String × List (String × Nat)))
    (ex mk p : String) :
    subsHasPair (subsOfIter o) ex mk p ↔
      ∃ b ∈ o, splitExchangeMarket b.1 = [ex, mk] ∧ p ∈ b.2.map Prod.fst := by
  induction o with
  | nil => simp [subsOfIter, subsHasPair]
  | cons b rest ih =>
      obtain ⟨em, prs⟩ := b
      rw [subsOfIter, subsHasPair_append, subsHasPair_group, ih]
      simp only [List.mem_cons]
      constructor
      · rintro (hgrp | ⟨x, hx, hprop⟩)
        · exact ⟨(em, prs), Or.inl rfl, hgrp.1, hgrp.2⟩
        · exact ⟨x, Or.inr hx, hprop⟩
      · rintro ⟨x, hx | hx, hprop⟩
        · subst hx
          exact Or.inl ⟨hprop.1, hprop.2⟩
        · exact Or.inr ⟨x, hx, hprop⟩

theorem forall2_split_exists_iff {γ : Type}
    {l o : List (String × List (String × γ))}
    (hf : List.Forall₂ (fun a b => a.1 = b.1 ∧ List.Perm a.2 b.2) l o)
    (ex mk p : String) :
    (∃ a ∈ l, splitExchangeMarket a.1 = [ex, mk] ∧ p ∈ a.2.map Prod.fst)
      ↔ (∃ b ∈ o, splitExchangeMarket b.1 = [ex, mk] ∧ p ∈ b.2.map Prod.fst) := by
  induction hf with
  | nil => simp
  | cons hab htail ihh =>
      rename_i a b l2 o2
      simp only [List.mem_cons]
      constructor
      · rintro ⟨x, hx | hx, hprop⟩
        · subst hx
          exact ⟨b, Or.inl rfl, hab.1 ▸ hprop.1,
            ((hab.2.map Prod.fst).mem_iff).mp hprop.2⟩
        · obtain ⟨y, hy, hyp⟩ := ihh.mp ⟨x, hx, hprop⟩
          exact ⟨y, Or.inr hy, hyp⟩
      · rintro ⟨x, hx | hx, hprop⟩
        · subst hx
          exact ⟨a, Or.inl rfl, hab.1.symm ▸ hprop.1,
            ((hab.2.map Prod.fst).mem_iff).mpr hprop.2⟩
        · obtain ⟨y, hy, hyp⟩ := ihh.mpr ⟨x, hx, hprop⟩
          exact ⟨y, Or.inr hy, hyp⟩

theorem mapIter_exists_iff {γ : Type} {m o : List (String × List (String × γ))}
    (h : MapIter m o) (ex mk p : String) :
    (∃ b ∈ o, splitExchangeMarket b.1 = [ex, mk] ∧ p ∈ b.2.map Prod.fst) ↔
    (∃ a ∈ m, splitExchangeMarket a.1 = [ex, mk] ∧ p ∈ a.2.map Prod.fst) := by
  obtain ⟨l, hperm, hf⟩ := h
  have hml : (∃ a ∈ m, splitExchangeMarket a.1 = [ex, mk] ∧ p ∈ a.2.map Prod.fst)
      ↔ (∃ a ∈ l, splitExchangeMarket a.1 = [ex, mk] ∧ p ∈ a.2.map Prod.fst) := by
    constructor
    · rintro ⟨a, ha, hp2⟩
      exact ⟨a, hperm.subset ha, hp2⟩
    · rintro ⟨a, ha, hp2⟩
      exact ⟨a, hperm.symm.subset ha, hp2⟩
  exact (forall2_split_exists_iff hf ex mk p).symm.trans hml.symm

theorem exists_mem_iff_pairIn {γ : Type} {m : List (String × List (String × γ))}
    (hnd : keysNodup m) (ex mk p : String) :
    (∃ a ∈ m, splitExchangeMarket a.1 = [ex, mk] ∧ p ∈ a.2.map Prod.fst) ↔
    (∃ em, splitExchangeMarket em = [ex, mk] ∧ pairIn m em p) := by
  constructor
  · rintro ⟨⟨em, inner⟩, ha, hsp, hp⟩
    exact ⟨em, hsp, inner, lookupStr_eq_some_of_mem_nodup hnd ha,
      mem_map_fst_iff_lookupStr.mp hp⟩
  · rintro ⟨em, hsp, inner, hl, hp⟩
    exact ⟨(em, inner), mem_of_lookupStr_eq_some hl, hsp,
      mem_map_fst_iff_lookupStr.mpr hp⟩

/-! ## Claim theorems: diff determinism (C5) -/

/-- C5 amended: any two runs of `Merge` from equal previous state on equal
snapshots agree on the set of (venue, market, pair) subscribe entries,
whatever map iteration orders Go chooses; the depth attached to a group
and the list orders may however differ between runs (see the
counterexample). -/
theorem merge_subscribe_pairs_deterministic
    (sm : SubscriptionManagerState) (newTasks : TasksData)
    (r1 r2 : SubscriptionDiff × SubscriptionManagerState)
    (h1 : MergeRun sm newTasks r1) (h2 : MergeRun sm newTasks r2)
    (ex mk p : String) :
    (subsHasPair r1.1.toSubscribe ex mk p ↔ subsHasPair r2.1.toSubscribe ex mk p) := by
  obtain ⟨mo1, to1, lm1, lt1, so1, uo1, hm1, ht1, _, _, hs1, _, hres1⟩ := h1
  obtain ⟨mo2, to2, lm2, lt2, so2, uo2, hm2, ht2, _, _, hs2, _, hres2⟩ := h2
  subst hres1
  subst hres2
  show subsHasPair (subsOfIter so1) ex mk p ↔ subsHasPair (subsOfIter so2) ex mk p
  rw [subsHasPair_subsOfIter, subsHasPair_subsOfIter,
    mapIter_exists_iff hs1 ex mk p, mapIter_exists_iff hs2 ex mk p,
    exists_mem_iff_pairIn (keysNodup_buildSubscribePairs _ _ mo1 to1) ex mk p,
    exists_mem_iff_pairIn (keysNodup_buildSubscribePairs _ _ mo2 to2) ex mk p]
  constructor <;> rintro ⟨em, hsp, hpi⟩ <;> refine ⟨em, hsp, ?_⟩
  · rw [pairIn_buildSubscribePairs] at hpi ⊢
    rcases hpi with ⟨e, he, hprop⟩ | ⟨e, he, hprop⟩
    · exact Or.inl ⟨e, hm2.symm.subset (hm1.subset he), hprop⟩
    · exact Or.inr ⟨e, ht2.symm.subset (ht1.subset he), hprop⟩
  · rw [pairIn_buildSubscribePairs] at hpi ⊢
    rcases hpi with ⟨e, he, hprop⟩ | ⟨e, he, hprop⟩
    · exact Or.inl ⟨e, hm1.symm.subset (hm2.subset he), hprop⟩
    · exact Or.inr ⟨e, ht1.symm.subset (ht2.subset he), hprop⟩

/-- Snapshot used to exhibit iteration-order dependence: one monitoring
task at depth 20 and one trading task for a second pair, both on
(binance, spot). -/
def mixedDepthSnapshot : TasksData :=
  ⟨0, [⟨1, 1, "binance", "Binance", "spot", 7, "AAA/BBB", 20, 100, 5, 1000, 5⟩],
    [⟨2, 1, 6, "binance", "Binance", "spot", 8, "CCC/DDD", "arb", "params", 3⟩]⟩

/-- State stored by `Merge` after processing `mixedDepthSnapshot`. -/
def mixedDepthState : SubscriptionManagerState :=
  ⟨buildMonitoringMap mixedDepthSnapshot.monitoringTasks,
    buildTradingMap mixedDepthSnapshot.tradingTasks⟩

/-- A run of `Merge` on `mixedDepthSnapshot` from the empty state whose
inner map iteration visits the monitoring pair first: the single group is
emitted at depth 20. -/
theorem mergeRun_monitor_first :
    MergeRun ⟨[], []⟩ mixedDepthSnapshot
      (⟨[⟨"binance", "spot", ["AAA/BBB", "CCC/DDD"], 20⟩], []⟩, mixedDepthState) := by
  have hsub : MapIter (buildSubscribePairs [] []
      (buildMonitoringMap mixedDepthSnapshot.monitoringTasks)
      (buildTradingMap mixedDepthSnapshot.tradingTasks))
      [("binance:spot", [("AAA/BBB", 20), ("CCC/DDD", 50)])] := by
    rw [show buildSubscribePairs [] []
        (buildMonitoringMap mixedDepthSnapshot.monitoringTasks)
        (buildTradingMap mixedDepthSnapshot.tradingTasks)
        = [("binance:spot", [("AAA/BBB", 20), ("CCC/DDD", 50)])] from by decide]
    exact mapIter_refl _
  have hunsub : MapIter (buildUnsubscribePairs
      (buildMonitoringMap mixedDepthSnapshot.monitoringTasks)
      (buildTradingMap mixedDepthSnapshot.tradingTasks) [] [])
      ([] : List (String × List (String × Bool))) :=
    ⟨[], by decide, List.Forall₂.nil⟩
  exact ⟨_, _, _, _, _, _, List.Perm.refl _, List.Perm.refl _, List.Perm.refl _,
    List.Perm.refl _, hsub, hunsub, by decide⟩

/-- A run of `Merge` on `mixedDepthSnapshot` from the empty state whose
inner map iteration visits the trading pair first: the same group is
emitted at depth 50. -/
theorem mergeRun_trade_first :
    MergeRun ⟨[], []⟩ mixedDepthSnapshot
      (⟨[⟨"binance", "spot", ["CCC/DDD", "AAA/BBB"], 50⟩], []⟩, mixedDepthState) := by
  have hsub : MapIter (buildSubscribePairs [] []
      (buildMonitoringMap mixedDepthSnapshot.monitoringTasks)
      (buildTradingMap mixedDepthSnapshot.tradingTasks))
      [("binance:spot", [("CCC/DDD", 50), ("AAA/BBB", 20)])] := by
    rw [show buildSubscribePairs [] []
        (buildMonitoringMap mixedDepthSnapshot.monitoringTasks)
        (buildTradingMap mixedDepthSnapshot.tradingTasks)
        = [("binance:spot", [("AAA/BBB", 20), ("CCC/DDD", 50)])] from by decide]
    exact ⟨[("binance:spot", [("AAA/BBB", 20), ("CCC/DDD", 50)])],
      List.Perm.refl _,
      List.Forall₂.cons
        ⟨rfl, List.Perm.swap ("CCC/DDD", 50) ("AAA/BBB", 20) []⟩
        List.Forall₂.nil⟩
  have hunsub : MapIter (buildUnsubscribePairs
      (buildMonitoringMap mixedDepthSnapshot.monitoringTasks)
      (buildTradingMap mixedDepthSnapshot.tradingTasks) [] [])
      ([] : List (String × List (String × Bool))) :=
    ⟨[], by decide, List.Forall₂.nil⟩
  exact ⟨_, _, _, _, _, _, List.Perm.refl _, List.Perm.refl _, List.Perm.refl _,
    List.Perm.refl _, hsub, hunsub, by decide⟩

/-- C5 counterexample: two runs of `Merge` from the same (empty) previous
state on the same snapshot produce different diffs — the single
(binance, spot) group carries depth 20 in one run and depth 50 in the
other, because Go map iteration order decides which depth is read first
when a group mixes depths. -/
theorem merge_depth_nondeterministic_cex :
    MergeRun ⟨[], []⟩ mixedDepthSnapshot
      (⟨[⟨"binance", "spot", ["AAA/BBB", "CCC/DDD"], 20⟩], []⟩, mixedDepthState) ∧
    MergeRun ⟨[], []⟩ mixedDepthSnapshot
      (⟨[⟨"binance", "spot", ["CCC/DDD", "AAA/BBB"], 50⟩], []⟩, mixedDepthState) ∧
    ([⟨"binance", "spot", ["AAA/BBB", "CCC/DDD"], 20⟩] : List Subscription).map
        Subscription.depth = [20] ∧
    ([⟨"binance", "spot", ["CCC/DDD", "AAA/BBB"], 50⟩] : List Subscription).map
        Subscription.depth = [50] ∧
    (⟨[⟨"binance", "spot", ["AAA/BBB", "CCC/DDD"], 20⟩], []⟩ : SubscriptionDiff)
      ≠ ⟨[⟨"binance", "spot", ["CCC/DDD", "AAA/BBB"], 50⟩], []⟩ :=
  ⟨mergeRun_monitor_first, mergeRun_trade_first, by decide, by decide, by decide⟩

/-- Witness for the C5 theorem: the two concrete runs above agree on pair
membership of the (binance, spot) group. -/
theorem merge_subscribe_pairs_deterministic_witness :
    MergeRun ⟨[], []⟩ mixedDepthSnapshot
      (⟨[⟨"binance", "spot", ["AAA/BBB", "CCC/DDD"], 20⟩], []⟩, mixedDepthState) ∧
    MergeRun ⟨[], []⟩ mixedDepthSnapshot
      (⟨[⟨"binance", "spot", ["CCC/DDD", "AAA/BBB"], 50⟩], []⟩, mixedDepthState) ∧
    (subsHasPair [⟨"binance", "spot", ["AAA/BBB", "CCC/DDD"], 20⟩]
        "binance" "spot" "AAA/BBB" ↔
      subsHasPair [⟨"binance", "spot", ["CCC/DDD", "AAA/BBB"], 50⟩]
        "binance" "spot" "AAA/BBB") :=
  ⟨mergeRun_monitor_first, mergeRun_trade_first,
    merge_subscribe_pairs_deterministic ⟨[], []⟩ mixedDepthSnapshot _ _
      mergeRun_monitor_first mergeRun_trade_first "binance" "spot" "AAA/BBB"⟩

end Daemon2
